import Mathlib

/-!
Verification development for the rbd consistency-group subsystem
(src/librbd/Group.cc, src/cls/rbd/cls_rbd.h, src/cls/rbd/cls_rbd_types.h).

Part 1 is a byte-level shallow embedding of the versioned metadata codec
(cls_rbd_parent, cls_rbd_snap and the snapshot-ref / snapshot-namespace
variants).  The ceph buffer is modelled as a `List Nat` of bytes; fixed
width integers are encoded little-endian with explicit `% 2 ^ w`
truncation, strings as a u32 length followed by the raw bytes, exactly as
`::encode`/`::decode` do.  The `ENCODE_START(v, compat, bl)` /
`DECODE_START(v, bl)` framing (version byte, compat byte, u32 payload
length, trailing-skip on finish) is modelled explicitly.

Part 2 models the pagination loops of `group_snap_list_cls` and
`group_image_list`.

Part 3 is a state interpreter for the Group.cc coordinator operations
(`group_snap_create`, `group_snap_remove`, `group_image_add`) over an
explicit world state (group directory, group headers, image directory,
images), with an environment that injects the outcome of each fallible
external call.
-/

set_option maxRecDepth 100000
set_option maxHeartbeats 1000000

namespace CephCodec

/-- One byte of a u8 encoding, truncated as the C++ fixed-width write does. -/
def encU8 (n : Nat) : List Nat := [n % 256]

/-- Little-endian 4-byte encoding of a u32 value. -/
def encU32 (n : Nat) : List Nat :=
  [n % 256, n / 256 % 256, n / 65536 % 256, n / 16777216 % 256]

/-- Little-endian 8-byte encoding of a u64 value. -/
def encU64 (n : Nat) : List Nat :=
  [n % 256, n / 256 % 256, n / 65536 % 256, n / 16777216 % 256,
   n / 4294967296 % 256, n / 1099511627776 % 256,
   n / 281474976710656 % 256, n / 72057594037927936 % 256]

/-- Two's-complement 8-byte encoding of an int64 value. -/
def encS64 (i : Int) : List Nat := encU64 (i % (18446744073709551616 : Int)).toNat

/-- A ceph string: u32 length followed by the raw bytes. -/
def encBytes (s : List Nat) : List Nat := encU32 s.length ++ s

def decU8 : List Nat → Option (Nat × List Nat)
  | [] => none
  | b :: t => some (b, t)

def decU32 : List Nat → Option (Nat × List Nat)
  | b0 :: b1 :: b2 :: b3 :: t =>
      some (b0 + 256 * (b1 + 256 * (b2 + 256 * b3)), t)
  | _ => none

def decU64 : List Nat → Option (Nat × List Nat)
  | b0 :: b1 :: b2 :: b3 :: b4 :: b5 :: b6 :: b7 :: t =>
      some (b0 + 256 * (b1 + 256 * (b2 + 256 * (b3 + 256 * (b4 + 256 *
            (b5 + 256 * (b6 + 256 * b7)))))), t)
  | _ => none

def decS64 (l : List Nat) : Option (Int × List Nat) :=
  match decU64 l with
  | none => none
  | some (n, t) =>
      some (if n < 9223372036854775808 then (n : Int)
            else (n : Int) - 18446744073709551616, t)

def decBytes (l : List Nat) : Option (List Nat × List Nat) :=
  match decU32 l with
  | none => none
  | some (len, t) =>
      if t.length < len then none else some (t.take len, t.drop len)

end CephCodec

namespace CephCodec

/-- CEPH_NOSNAP, the "no snapshot" sentinel snapid ((uint64_t)(-2)). -/
def CEPH_NOSNAP : Nat := 18446744073709551614

/-- RBD_PROTECTION_STATUS_UNPROTECTED (= 0, from include/rbd/librbd.h; the
header is outside src/, only the constant's value is used here). -/
def RBD_PROTECTION_STATUS_UNPROTECTED : Nat := 0

/-- cls_rbd_parent (src/cls/rbd/cls_rbd.h): parent pool id, parent image id,
parent snapid and overlap.  Strings are byte lists. -/
structure ClsRbdParent where
  pool : Int
  id : List Nat
  snapid : Nat
  overlap : Nat
deriving DecidableEq

/-- The default-constructed cls_rbd_parent: pool -1, empty id,
snapid CEPH_NOSNAP, overlap 0. -/
def parentDefault : ClsRbdParent :=
  { pool := -1, id := [], snapid := CEPH_NOSNAP, overlap := 0 }

/-- cls_rbd_parent::encode: ENCODE_START(1, 1) framing around
pool, id, snapid, overlap. -/
def ClsRbdParent.encode (p : ClsRbdParent) : List Nat :=
  let payload := encS64 p.pool ++ encBytes p.id ++ encU64 p.snapid ++ encU64 p.overlap
  1 :: 1 :: encU32 payload.length ++ payload

/-- cls_rbd_parent::decode: DECODE_START(1, bl) reads the version and compat
bytes, rejects compat > 1, reads the u32 payload length, bounds the field
reads to the payload and skips any unconsumed payload tail. -/
def ClsRbdParent.decode (l : List Nat) : Option (ClsRbdParent × List Nat) :=
  match decU8 l with
  | none => none
  | some (_v, l1) =>
  match decU8 l1 with
  | none => none
  | some (compat, l2) =>
  if 1 < compat then none else
  match decU32 l2 with
  | none => none
  | some (len, l3) =>
  if l3.length < len then none else
  let body := l3.take len
  let rest := l3.drop len
  match decS64 body with
  | none => none
  | some (pool, b1) =>
  match decBytes b1 with
  | none => none
  | some (id, b2) =>
  match decU64 b2 with
  | none => none
  | some (snapid, b3) =>
  match decU64 b3 with
  | none => none
  | some (overlap, _b4) =>
  some ({ pool := pool, id := id, snapid := snapid, overlap := overlap }, rest)

/-- Field bounds under which a cls_rbd_parent value is representable by its
fixed-width encoding (int64 pool, u32-length string, u64 snapid/overlap). -/
def ClsRbdParent.wf (p : ClsRbdParent) : Prop :=
  -9223372036854775808 ≤ p.pool ∧ p.pool < 9223372036854775808 ∧
  p.id.length < 536870912 ∧
  p.snapid < 18446744073709551616 ∧ p.overlap < 18446744073709551616

instance (p : ClsRbdParent) : Decidable p.wf := by
  unfold ClsRbdParent.wf; infer_instance

/-- SnapshotRef (src/cls/rbd/cls_rbd.h): boost::variant over
SelfStandingSnapshot (discriminant 0, empty payload) and GroupMemberSnapshot
(discriminant 1, with group pool, group id and snapshot id). -/
inductive SnapshotRef where
  | selfStanding : SnapshotRef
  | groupMember (group_pool : Int) (group_id : List Nat) (snapshot_id : List Nat) : SnapshotRef
deriving DecidableEq

/-- EncodeSnapshotTypeVisitor: the u32 discriminant followed by the
variant's own payload. -/
def encSnapshotRef : SnapshotRef → List Nat
  | .selfStanding => encU32 0
  | .groupMember gp gid sid => encU32 1 ++ encS64 gp ++ encBytes gid ++ encBytes sid

/-- The snapshot-ref tail of cls_rbd_snap::decode (struct_v >= 5): read the
u32 discriminant; 0 selects SelfStandingSnapshot, 1 GroupMemberSnapshot, and
the default branch of the switch also selects SelfStandingSnapshot (whose
decode consumes nothing). -/
def decSnapRefTail (l : List Nat) : Option (SnapshotRef × List Nat) :=
  match decU32 l with
  | none => none
  | some (t, l1) =>
  match t with
  | 0 => some (.selfStanding, l1)
  | 1 =>
      match decS64 l1 with
      | none => none
      | some (gp, a) =>
      match decBytes a with
      | none => none
      | some (gid, b) =>
      match decBytes b with
      | none => none
      | some (sid, c) => some (.groupMember gp gid sid, c)
  | _ => some (.selfStanding, l1)

/-- cls_rbd_snap (src/cls/rbd/cls_rbd.h): id, name, image_size, features,
protection_status, parent, flags and the snapshot-ref variant. -/
structure ClsRbdSnap where
  id : Nat
  name : List Nat
  image_size : Nat
  features : Nat
  protection_status : Nat
  parent : ClsRbdParent
  flags : Nat
  snapshot_ref : SnapshotRef
deriving DecidableEq

/-- cls_rbd_snap::encode: ENCODE_START(5, 1) framing around id, name,
image_size, features, parent, protection_status, flags and the visited
snapshot-ref variant. -/
def ClsRbdSnap.encode (s : ClsRbdSnap) : List Nat :=
  let payload := encU64 s.id ++ encBytes s.name ++ encU64 s.image_size ++
    encU64 s.features ++ s.parent.encode ++ encU8 s.protection_status ++
    encU64 s.flags ++ encSnapshotRef s.snapshot_ref
  5 :: 1 :: encU32 payload.length ++ payload

/-- cls_rbd_snap::decode: DECODE_START(5, p), then the unconditional fields
id, name, image_size, features, then the version-gated fields: parent only
when struct_v >= 2, protection_status only when struct_v >= 3, flags only
when struct_v >= 4, the snapshot-ref variant only when struct_v >= 5.  A
field absent from an old blob keeps the value the default constructor gave
it (UNPROTECTED, zero flags, default parent) and the struct_v < 5 branch
assigns SelfStandingSnapshot explicitly. -/
def ClsRbdSnap.decode (l : List Nat) : Option (ClsRbdSnap × List Nat) :=
  match decU8 l with
  | none => none
  | some (v, l1) =>
  match decU8 l1 with
  | none => none
  | some (compat, l2) =>
  if 5 < compat then none else
  match decU32 l2 with
  | none => none
  | some (len, l3) =>
  if l3.length < len then none else
  let body := l3.take len
  let rest := l3.drop len
  match decU64 body with
  | none => none
  | some (id, b1) =>
  match decBytes b1 with
  | none => none
  | some (name, b2) =>
  match decU64 b2 with
  | none => none
  | some (image_size, b3) =>
  match decU64 b3 with
  | none => none
  | some (features, b4) =>
  match (if 2 ≤ v then ClsRbdParent.decode b4 else some (parentDefault, b4)) with
  | none => none
  | some (parent, b5) =>
  match (if 3 ≤ v then decU8 b5 else some (RBD_PROTECTION_STATUS_UNPROTECTED, b5)) with
  | none => none
  | some (protection_status, b6) =>
  match (if 4 ≤ v then decU64 b6 else some (0, b6)) with
  | none => none
  | some (flags, b7) =>
  match (if 5 ≤ v then decSnapRefTail b7 else some (.selfStanding, b7)) with
  | none => none
  | some (snapshot_ref, _b8) =>
  some ({ id := id, name := name, image_size := image_size, features := features,
          protection_status := protection_status, parent := parent, flags := flags,
          snapshot_ref := snapshot_ref }, rest)

/-- Field bounds under which a SnapshotRef value is representable by its
encoding. -/
def SnapshotRef.wf : SnapshotRef → Prop
  | .selfStanding => True
  | .groupMember gp gid sid =>
      -9223372036854775808 ≤ gp ∧ gp < 9223372036854775808 ∧
      gid.length < 536870912 ∧ sid.length < 536870912

instance (r : SnapshotRef) : Decidable r.wf := by
  cases r <;> (unfold SnapshotRef.wf; infer_instance)

/-- Field bounds under which a cls_rbd_snap value is representable by its
fixed-width encoding. -/
def ClsRbdSnap.wf (s : ClsRbdSnap) : Prop :=
  s.id < 18446744073709551616 ∧ s.name.length < 536870912 ∧
  s.image_size < 18446744073709551616 ∧ s.features < 18446744073709551616 ∧
  s.protection_status < 256 ∧ s.parent.wf ∧ s.flags < 18446744073709551616 ∧
  s.snapshot_ref.wf

instance (s : ClsRbdSnap) : Decidable s.wf := by
  unfold ClsRbdSnap.wf; infer_instance

def snapV1Blob (id : Nat) (name : List Nat) (image_size features : Nat) : List Nat :=
  let payload := encU64 id ++ encBytes name ++ encU64 image_size ++ encU64 features
  1 :: 1 :: encU32 payload.length ++ payload

/-- SnapshotNamespace (src/cls/rbd/cls_rbd_types.h): boost::variant over
UserSnapshotNamespace (discriminant 0), GroupSnapshotNamespace
(discriminant 1) and UnknownSnapshotNamespace (discriminant 0xffffffff,
empty payload). -/
inductive SnapshotNamespaceRec where
  | user : SnapshotNamespaceRec
  | group (group_pool : Int) (group_id : List Nat) (snapshot_id : List Nat) :
      SnapshotNamespaceRec
  | unknown : SnapshotNamespaceRec
deriving DecidableEq

/-- Modelled from the spec: the decode dispatcher for
cls::rbd::SnapshotNamespace lives in cls_rbd_types.cc, which is not under
src/ (the header only declares the variant, its per-variant decode methods
and the Encode/DecodeSnapshotTypeVisitor).  Per the spec, decoding reads the
u32 discriminant first and "decoding an unrecognized discriminant must not
fail - it maps to Unknown": 0 selects User, 1 selects Group (whose payload
is group_pool, group_id, snapshot_id), every other value selects Unknown,
whose decode consumes nothing. -/
def decodeSnapshotNamespace (l : List Nat) : Option (SnapshotNamespaceRec × List Nat) :=
  match decU32 l with
  | none => none
  | some (t, l1) =>
  match t with
  | 0 => some (.user, l1)
  | 1 =>
      match decS64 l1 with
      | none => none
      | some (gp, a) =>
      match decBytes a with
      | none => none
      | some (gid, b) =>
      match decBytes b with
      | none => none
      | some (sid, c) => some (.group gp gid sid, c)
  | _ => some (.unknown, l1)

end CephCodec

namespace Grp

/-- Modelled from the spec: one page of an object-store listing
(`dir_list`/`group_image_list`/`group_snap_list` served by cls code outside
src/) returns at most `max` entries in key order, continuing after the start
cursor.  Both pagination loops below re-declare their cursor variable inside
the loop body (Group.cc lines 320 and 597), so every call they make passes
the default cursor and receives the first `min(max, |entries|)` entries. -/
def firstPage (l : List α) (maxR : Nat) : List α := l.take maxR

/-- The do-while loop of group_snap_list_cls (Group.cc lines 596-610),
fuel-indexed: `snap_last` is re-declared (default) each iteration, and `r`
holds the return code of the cls_client::group_snap_list call, which is 0 on
success  -  as witnessed by the explicit `r = image_ids_page.size()` /
`r = groups.size()` overwrites in group_image_list and group_list, which
would be senseless if the calls returned the page size.  The loop then
compares `r` with max_read = 1024.  `none` means the fuel ran out, i.e. that
many iterations did not terminate the loop. -/
def groupSnapListClsLoop (entries : List α) : Nat → List α → Option (List α)
  | 0, _ => none
  | fuel + 1, acc =>
    let page := firstPage entries 1024
    let acc' := acc ++ page
    let r : Int := 0
    if r = 1024 then groupSnapListClsLoop entries fuel acc' else some acc'

/-- The do-while loop of group_image_list (Group.cc lines 318-337),
fuel-indexed: `start_last` is re-declared inside the loop (so the cursor
passed to cls_client::group_image_list is always the default; the assignment
at line 334 dies with the scope), and `r` is overwritten with the page size
before the `r == max_read` test. -/
def groupImageListLoop (entries : List α) : Nat → List α → Option (List α)
  | 0, _ => none
  | fuel + 1, acc =>
    let page := firstPage entries 1024
    let acc' := acc ++ page
    if page.length = 1024 then groupImageListLoop entries fuel acc' else some acc'

/-- GROUP_SNAPSHOT_STATE_PENDING / GROUP_SNAPSHOT_STATE_COMPLETE.  The
enum and the state/uuid-carrying cls::rbd::GroupSnapshot that Group.cc
compiles against are not in the src/ snapshot of cls_rbd_types.h (its
GroupSnapshot struct predates them); the two states are those of the spec's
GroupSnapshot record and of Group.cc's uses. -/
inductive GroupSnapState where
  | pending : GroupSnapState
  | complete : GroupSnapState
deriving DecidableEq

/-- GROUP_IMAGE_LINK_STATE_ATTACHED / _INCOMPLETE (cls_rbd_types.h). -/
inductive LinkState where
  | attached : LinkState
  | incomplete : LinkState
deriving DecidableEq

/-- cls::rbd::ImageSnapshotRef (cls_rbd_types.h): pool, image_id, snap_id. -/
structure ImageSnapshotRef where
  pool : Int
  image_id : String
  snap_id : Nat
deriving DecidableEq

/-- The group-snapshot record (spec section 3; Group.cc populates id, uuid,
name, state and snaps). -/
structure GroupSnapRec where
  id : Nat
  uuid : String
  name : String
  state : GroupSnapState
  snaps : List ImageSnapshotRef
deriving DecidableEq

/-- cls::rbd::GroupImageStatus flattened: member image id, pool and link
state. -/
structure GroupImageStatus where
  image_id : String
  pool_id : Int
  state : LinkState
deriving DecidableEq

/-- The group header object: membership map, snapshot sequence counter and
the snapshot-id-keyed map of group-snapshot records (kept in id order, as
the omap enumeration returns them). -/
structure GroupHeader where
  images : List GroupImageStatus
  snapSeq : Nat
  snaps : List GroupSnapRec
deriving DecidableEq

/-- cls::rbd::SnapshotNamespace as Group.cc uses it.  Group.cc constructs
GroupSnapshotNamespace(group_ioctx.get_id(), group_id, snap_seq): the third
argument is the uint64 sequence number, modelled as a Nat field. -/
inductive SnapNs where
  | user : SnapNs
  | group (pool : Int) (gid : String) (seq : Nat) : SnapNs
  | unknown : SnapNs
deriving DecidableEq

/-- One per-image snapshot: its snap id, name and namespace tag. -/
structure ImgSnap where
  id : Nat
  name : String
  ns : SnapNs
deriving DecidableEq

/-- One rbd image: pool, immutable id, a fresh-snap-id counter, its
snapshots, and the at-most-one group back-reference its header carries. -/
structure Image where
  pool : Int
  id : String
  nextSnapId : Nat
  snaps : List ImgSnap
  groupRef : Option (String × Int)
deriving DecidableEq

/-- The object-store world: the group directory (name to id), the group
header objects (keyed by group id), the two sides of the rbd image
directory of each pool (name to id and id to name  -  kept separate, since a
remove/recreate can leave a stale id-to-name entry while the name maps to a
new id), and the images. -/
structure World where
  groupDir : List (String × String)
  headers : List (String × GroupHeader)
  imageDirFwd : List ((Int × String) × String)
  imageDirRev : List ((Int × String) × String)
  images : List Image
deriving DecidableEq

/-- Association-list lookup. -/
def alookup [DecidableEq α] : List (α × β) → α → Option β
  | [], _ => none
  | (a, b) :: t, k => if a = k then some b else alookup t k

def dirGetId (w : World) (g : String) : Option String := alookup w.groupDir g

def headerOf (w : World) (gid : String) : Option GroupHeader := alookup w.headers gid

/-- Apply `f` to the header object of group `gid` (one atomic cls call on
that single object). -/
def mapHeader (w : World) (gid : String) (f : GroupHeader → GroupHeader) : World :=
  { w with headers := w.headers.map (fun p => if p.1 = gid then (p.1, f p.2) else p) }

def findImageL (l : List Image) (pool : Int) (iid : String) : Option Image :=
  l.find? (fun im => decide (im.pool = pool ∧ im.id = iid))

def updateImageL (l : List Image) (pool : Int) (iid : String) (im' : Image) : List Image :=
  l.map (fun im => if im.pool = pool ∧ im.id = iid then im' else im)

def findImage (w : World) (pool : Int) (iid : String) : Option Image :=
  findImageL w.images pool iid

/-- cls group_snap_save: the record is keyed by its id; saving replaces an
existing record with that id, otherwise appends. -/
def upsertRec (h : GroupHeader) (rec : GroupSnapRec) : GroupHeader :=
  if h.snaps.any (fun r => decide (r.id = rec.id)) then
    { h with snaps := h.snaps.map (fun r => if r.id = rec.id then rec else r) }
  else { h with snaps := h.snaps ++ [rec] }

def retENOENT : Int := -2
def retEEXIST : Int := -17
def retEAGAIN : Int := -11

/-- Outcomes of the fallible external calls (image open, exclusive lock,
cls writes, per-image snapshot create/remove), by call site and fan-out
index.  0 is success, a negative value the errno-style failure the call
reported. -/
structure Env where
  openRes : Nat → Int
  lockRes : Nat → Int
  nextSeqRes : Int
  savePendingRes : Int
  snapCreateRes : Nat → Int
  saveCompleteRes : Int
  snapRemoveRes : Nat → Int
  recordRemoveRes : Int
  setIncompleteRes : Int
  addRefRes : Int
  rollbackRes : Int
  setAttachedRes : Int

/-- Coarse trace of the externally visible operations a coordinator run
issues, in order. -/
inductive Ev where
  | openImg (i : Nat) : Ev
  | lockImg (i : Nat) : Ev
  | allocSeq : Ev
  | saveRec (st : GroupSnapState) (res : Int) : Ev
  | createSnap (i : Nat) : Ev
  | removeSnap (i : Nat) : Ev
  | removeRec : Ev
deriving DecidableEq

/-- A member image as group_image_list returns it: pool and resolved name. -/
structure Member where
  pool : Int
  name : String
deriving DecidableEq

/-- An opened ImageCtx, as far as the coordinator observes it: the pool it
was opened in and the image id the open resolved. -/
structure Handle where
  pool : Int
  id : String
deriving DecidableEq

/-- Result of one image open: the wait() return code and the handle. -/
structure OpenOut where
  res : Int
  hd : Option Handle
deriving DecidableEq

/-- The name-resolution pass of group_image_list (lines 339-355): each
member's image id is resolved to a name through that pool's rbd directory;
the first dir_get_name failure is returned. -/
def resolveMembers (w : World) : List GroupImageStatus → Except Int (List Member)
  | [] => .ok []
  | st :: t =>
    match alookup w.imageDirRev (st.pool_id, st.image_id) with
    | none => .error retENOENT
    | some nm =>
      match resolveMembers w t with
      | .error r => .error r
      | .ok ms => .ok ({ pool := st.pool_id, name := nm } :: ms)

/-- One image open in group_snap_create: fails with the environment's
injected error, or with -ENOENT when the name does not resolve or the image
does not exist; on success the handle carries the id the open resolved
through the pool's name-to-id directory. -/
def openOne (env : Env) (w : World) (i : Nat) (m : Member) : OpenOut :=
  if env.openRes i < 0 then { res := env.openRes i, hd := none }
  else
    match alookup w.imageDirFwd (m.pool, m.name) with
    | none => { res := retENOENT, hd := none }
    | some iid =>
      match findImage w m.pool iid with
      | none => { res := retENOENT, hd := none }
      | some _ => { res := 0, hd := some { pool := m.pool, id := iid } }

def openAll (env : Env) (w : World) : Nat → List Member → List OpenOut
  | _, [] => []
  | i, m :: t => openOne env w i m :: openAll env w (i + 1) t

/-- The `ret_code = r` accumulation of the wait loops: iterating in index
order and overwriting on each failure leaves the last failure, or 0. -/
def lastErr : List Int → Int
  | [] => 0
  | r :: t =>
    let e := lastErr t
    if e ≠ 0 then e else if r < 0 then r else 0

/-- The deterministic per-image snapshot name
snap_name + "_" + group_id + "_" + seq (Group.cc lines 527-528). -/
def snapName (s gid : String) (seq : Nat) : String :=
  s ++ "_" ++ gid ++ "_" ++ toString seq

/-- The zero-initialized cls::rbd::ImageSnapshotRef() that pre-fills the
image_snaps vector; it survives at indices whose snapshot create failed. -/
def defaultRef : ImageSnapshotRef := { pool := 0, image_id := "", snap_id := 0 }

/-- Result of the per-image snapshot-create fan-out: the images after the
creates that succeeded, the collected refs, and the wait loop's ret_code. -/
structure SnapPhaseOut where
  images : List Image
  refs : List ImageSnapshotRef
  err : Int
deriving DecidableEq

/-- The per-image snapshot-create fan-out of group_snap_create (lines
518-550): every image is issued a create of the deterministic name with the
Group namespace tag; each success is recorded as a ref built from the
handle's pool and id and the snap id resolved back by name; failures leave
the zero ref at that index and are folded into the phase's ret_code.
Sibling operations are not cancelled on failure, so later successes still
take effect. -/
def createSnapsAux (env : Env) (gp : Int) (gid s : String) (seq : Nat) :
    Nat → List Handle → List Image → SnapPhaseOut
  | _, [], l => { images := l, refs := [], err := 0 }
  | i, h :: t, l =>
    let nm := snapName s gid seq
    if env.snapCreateRes i < 0 then
      let o := createSnapsAux env gp gid s seq (i + 1) t l
      { o with refs := defaultRef :: o.refs,
               err := if o.err ≠ 0 then o.err else env.snapCreateRes i }
    else
      match findImageL l h.pool h.id with
      | none =>
        let o := createSnapsAux env gp gid s seq (i + 1) t l
        { o with refs := defaultRef :: o.refs,
                 err := if o.err ≠ 0 then o.err else retENOENT }
      | some img =>
        if img.snaps.any (fun sn => decide (sn.name = nm)) then
          let o := createSnapsAux env gp gid s seq (i + 1) t l
          { o with refs := defaultRef :: o.refs,
                   err := if o.err ≠ 0 then o.err else retEEXIST }
        else
          let sid := img.nextSnapId
          let l1 := updateImageL l h.pool h.id
            { img with
              nextSnapId := sid + 1,
              snaps := img.snaps ++ [{ id := sid, name := nm, ns := .group gp gid seq }] }
          let o := createSnapsAux env gp gid s seq (i + 1) t l1
          { o with refs := { pool := h.pool, image_id := h.id, snap_id := sid } :: o.refs }

/-- The PENDING record group_snap_create persists before the per-image
snapshots (lines 505-510): id is the allocated sequence number, uuid empty,
snaps empty. -/
def pendingRec (seq : Nat) (s : String) : GroupSnapRec :=
  { id := seq, uuid := "", name := s, state := .pending, snaps := [] }

/-- The open-phase ret_code: the last failing wait() result. -/
def openErr (env : Env) (w : World) (members : List Member) : Int :=
  lastErr ((openAll env w 0 members).map OpenOut.res)

/-- The lock-phase ret_code over the n opened images. -/
def lockErr (env : Env) (n : Nat) : Int :=
  lastErr ((List.range n).map env.lockRes)

/-- The handles of the n successful opens. -/
def handlesOf (env : Env) (w : World) (members : List Member) : List Handle :=
  (openAll env w 0 members).filterMap OpenOut.hd

def trOpenN (n : Nat) : List Ev := (List.range n).map Ev.openImg

def trLockN (n : Nat) : List Ev := trOpenN n ++ (List.range n).map Ev.lockImg

def trSeqN (n : Nat) : List Ev := trLockN n ++ [Ev.allocSeq]

def trPendN (env : Env) (n : Nat) : List Ev :=
  trSeqN n ++ [Ev.saveRec .pending env.savePendingRes]

def trSnapN (env : Env) (n : Nat) : List Ev :=
  trPendN env n ++ (List.range n).map Ev.createSnap

def trCommitN (env : Env) (n : Nat) : List Ev :=
  trSnapN env n ++ [Ev.saveRec .complete env.saveCompleteRes]

/-- The world after group_snap_next_seq bumped the sequence counter. -/
def wSeqBump (w : World) (gid : String) (seq : Nat) : World :=
  mapHeader w gid (fun hh => { hh with snapSeq := seq })

/-- The world after the PENDING record was persisted. -/
def wPendSaved (w : World) (gid : String) (seq : Nat) (s : String) : World :=
  mapHeader (wSeqBump w gid seq) gid (fun hh => upsertRec hh (pendingRec seq s))

/-- The per-image snapshot-create fan-out, run against the images of the
pending-saved world. -/
def snapPhase (env : Env) (gp : Int) (w : World) (gid s : String) (seq : Nat)
    (members : List Member) : SnapPhaseOut :=
  createSnapsAux env gp gid s seq 0 (handlesOf env w members) (wPendSaved w gid seq s).images

/-- The world after the snapshot-create fan-out (PENDING record still in
place). -/
def wSnapDone (w : World) (gid : String) (seq : Nat) (s : String) (o : SnapPhaseOut) :
    World :=
  { wPendSaved w gid seq s with images := o.images }

/-- The world after the COMPLETE record was committed over the PENDING
one. -/
def wCommitted (w : World) (gid : String) (seq : Nat) (s : String) (o : SnapPhaseOut) :
    World :=
  mapHeader (wSnapDone w gid seq s o) gid
    (fun hh => upsertRec hh { id := seq, uuid := "", name := s, state := .complete,
                              snaps := o.refs })

/-- The phases of group_snap_create after the duplicate check and membership
listing: open all members, block and lock, allocate the sequence, persist
the PENDING record, fan out the per-image snapshot creates, and commit the
COMPLETE record; each failing phase jumps to the cleanup label with the
phase ret_code, cleanup touching no object-store state. -/
def createRest (env : Env) (gp : Int) (w : World) (gid s : String) (seq0 : Nat)
    (members : List Member) : Option (Int × World × List Ev) :=
  let n := members.length
  if openErr env w members ≠ 0 then some (openErr env w members, w, trOpenN n)
  else if lockErr env n ≠ 0 then some (lockErr env n, w, trLockN n)
  else if env.nextSeqRes < 0 then some (env.nextSeqRes, w, trSeqN n)
  else if env.savePendingRes < 0 then
    some (env.savePendingRes, wSeqBump w gid (seq0 + 1), trPendN env n)
  else
    let o := snapPhase env gp w gid s (seq0 + 1) members
    if o.err ≠ 0 then some (o.err, wSnapDone w gid (seq0 + 1) s o, trSnapN env n)
    else if env.saveCompleteRes < 0 then
      some (env.saveCompleteRes, wSnapDone w gid (seq0 + 1) s o, trCommitN env n)
    else some (0, wCommitted w gid (seq0 + 1) s o, trCommitN env n)

/-- group_snap_create (Group.cc lines 411-572) over the world state, with
`gp` the pool id of group_ioctx.  Returns the (ret_code, world, trace), or
`none` when the run does not terminate  -  the member-listing pagination loop
re-reads the same first page forever once the membership holds max_read
entries (see the groupImageListLoop lemmas).  The close/delete calls of the
cleanup label touch no object-store state and are modelled as no-ops. -/
def group_snap_create (env : Env) (gp : Int) (w : World) (g s : String) :
    Option (Int × World × List Ev) :=
  match dirGetId w g with
  | none => some (retENOENT, w, [])
  | some gid =>
  match headerOf w gid with
  | none => some (retENOENT, w, [])
  | some h =>
  if (firstPage h.snaps 1024).any (fun rec => decide (rec.name = s)) then
    some (retEEXIST, w, [])
  else
  if 1024 ≤ h.images.length then none
  else
  match resolveMembers w h.images with
  | .error r => some (r, w, [])
  | .ok members => createRest env gp w gid s h.snapSeq members

/-- The record-lookup loop of group_snap_remove (lines 642-646): it scans
the listed records in order and keeps overwriting `gs`, so the last record
with the requested name wins. -/
def findLastNamed : List GroupSnapRec → String → Option GroupSnapRec
  | [], _ => none
  | r :: t, s =>
    match findLastNamed t s with
    | some x => some x
    | none => if r.name = s then some r else none

/-- The dir_get_name resolutions of group_snap_remove's open loop (lines
663-668): each recorded image id is resolved to its current name through
the pool's id-to-name directory; any failure jumps to the cleanup label. -/
def resolveRefs (w : World) : List ImageSnapshotRef → Option (List (ImageSnapshotRef × String))
  | [] => some []
  | ref :: t =>
    match alookup w.imageDirRev (ref.pool, ref.image_id) with
    | none => none
    | some nm =>
      match resolveRefs w t with
      | none => none
      | some l => some ((ref, nm) :: l)

/-- The opens of group_snap_remove.  A failed open stores nullptr into
ictxs[i] and the wait loop then evaluates `ictxs[i]->id` (line 690): that
null dereference is undefined behavior, so the whole run maps to `none`.
On success the handle id is what the open resolved through the pool's
name-to-id directory. -/
def openRefHandles (env : Env) (w : World) :
    Nat → List (ImageSnapshotRef × String) → Option (List Handle)
  | _, [] => some []
  | i, (ref, nm) :: t =>
    if env.openRes i < 0 then none
    else
      match alookup w.imageDirFwd (ref.pool, nm) with
      | none => none
      | some iid =>
        match findImage w ref.pool iid with
        | none => none
        | some _ =>
          match openRefHandles env w (i + 1) t with
          | none => none
          | some hs => some ({ pool := ref.pool, id := iid } :: hs)

/-- The identity check of the wait loop (line 690): some opened image's
current id differs from the recorded image_id. -/
def mismatchAny : List Handle → List ImageSnapshotRef → Bool
  | h :: ht, r :: rt => decide (h.id ≠ r.image_id) || mismatchAny ht rt
  | _, _ => false

/-- Result of the per-image snapshot-remove fan-out: the images after the
removes that took effect, the wait loop's (inner) ret_code, and whether a
get_snap_name failure jumped to cleanup before the wait loop ran. -/
structure RemOut where
  images : List Image
  err : Int
  aborted : Bool
deriving DecidableEq

/-- snap_remove acts on the name that get_snap_name resolved for the
recorded snap id. -/
def removeSnapByName (l : List Image) (pool : Int) (iid : String) (nm : String) :
    List Image :=
  match findImageL l pool iid with
  | none => l
  | some img =>
      updateImageL l pool iid
        { img with snaps := img.snaps.filter (fun sn => decide (sn.name ≠ nm)) }

/-- The per-image snapshot-remove fan-out of group_snap_remove (lines
699-716): per image, the recorded snap id is resolved to its current name
(a failure is `goto cleanup`  -  the wait loop never runs, so no error is
read back and the inner ret_code stays 0); issued removes take effect
unless the environment fails them; the wait loop ignores -ENOENT and keeps
the last other failure. -/
def removeSnapsAux (env : Env) : Nat → List (Handle × ImageSnapshotRef) → List Image → RemOut
  | _, [], l => { images := l, err := 0, aborted := false }
  | i, (h, ref) :: t, l =>
    match findImageL l h.pool h.id with
    | none => { images := l, err := 0, aborted := true }
    | some img =>
      match img.snaps.find? (fun sn => decide (sn.id = ref.snap_id)) with
      | none => { images := l, err := 0, aborted := true }
      | some sn =>
        let l1 := if env.snapRemoveRes i < 0 then l else removeSnapByName l h.pool h.id sn.name
        let o := removeSnapsAux env (i + 1) t l1
        if o.aborted then { o with err := 0 }
        else
          { o with err :=
              if o.err ≠ 0 then o.err
              else if env.snapRemoveRes i < 0 ∧ env.snapRemoveRes i ≠ retENOENT then
                env.snapRemoveRes i
              else 0 }

/-- cls group_snap_remove: the record with that id is deleted from the
header's snapshot map. -/
def removeRecFromHeader (h : GroupHeader) (rid : Nat) : GroupHeader :=
  { h with snaps := h.snaps.filter (fun r => decide (r.id ≠ rid)) }

/-- group_snap_remove (Group.cc lines 615-737) over the world state.
The function-scope ret_code (line 623) is shadowed by a second ret_code
declared inside the COMPLETE branch (line 681); every failure inside that
branch  -  including the -EAGAIN identity mismatch  -  assigns the inner one
and jumps to the cleanup label, which returns the outer one, still 0.
The cleanup label's loop (lines 730-734) indexes ictxs and on_finishes up
to n, so it is consistent only on paths where both vectors were fully
populated; those paths touch no object-store state at cleanup and return
the outer 0.  Every path where n exceeds the vectors' length is undefined
behavior, modelled `none`: the non-COMPLETE path (n is the listed-record
count, at least 1 since the record was found, and both vectors are still
empty) and a dir_get_name failure inside the open loop (the vectors hold
fewer than n entries)  -  `ictxs[i]` and `delete on_finishes[i]` then go
through an empty slot past the vector's end, for an empty vector a null
data pointer.  Two further dereferences are UB and `none` as well:
`ictxs[i]->id` on the entry nulled after a failed open (line 690), and the
second `delete on_finishes[i]` at cleanup after a snap-remove wait failure
already deleted it at line 717 (double delete). -/
def group_snap_remove (env : Env) (w : World) (g s : String) :
    Option (Int × World × List Ev) :=
  match dirGetId w g with
  | none => some (retENOENT, w, [])
  | some gid =>
  match headerOf w gid with
  | none => some (retENOENT, w, [])
  | some h =>
  match findLastNamed (firstPage h.snaps 1024) s with
  | none => some (retENOENT, w, [])
  | some gs =>
  if gs.state = .complete then
    match resolveRefs w gs.snaps with
    | none => none
    | some prs =>
    match openRefHandles env w 0 prs with
    | none => none
    | some hs =>
    let n := gs.snaps.length
    let trOpen := (List.range n).map Ev.openImg
    if mismatchAny hs gs.snaps then some (0, w, trOpen)
    else
    let o := removeSnapsAux env 0 (hs.zip gs.snaps) w.images
    let w4 : World := { w with images := o.images }
    let trRem := trOpen ++ (List.range n).map Ev.removeSnap
    if o.aborted then some (0, w4, trRem)
    else if o.err ≠ 0 then none
    else
    let trRec := trRem ++ [Ev.removeRec]
    if env.recordRemoveRes < 0 then some (0, w4, trRec)
    else some (0, mapHeader w4 gid (fun hh => removeRecFromHeader hh gs.id), trRec)
  else none

/-- cls group_image_set: the membership entry is keyed by the image spec;
setting replaces an existing entry with that spec, otherwise appends. -/
def upsertImageStatus (l : List GroupImageStatus) (st : GroupImageStatus) :
    List GroupImageStatus :=
  if l.any (fun x => decide (x.image_id = st.image_id ∧ x.pool_id = st.pool_id)) then
    l.map (fun x => if x.image_id = st.image_id ∧ x.pool_id = st.pool_id then st else x)
  else l ++ [st]

/-- image_add_group / image_remove_group write the image header's group
back-reference. -/
def setImageGroupRef (w : World) (pool : Int) (iid : String)
    (ref : Option (String × Int)) : World :=
  { w with
    images := w.images.map (fun im =>
      if im.pool = pool ∧ im.id = iid then { im with groupRef := ref } else im) }

/-- group_image_add (Group.cc lines 153-221) over the world state, with
`gp` the pool id of group_ioctx: resolve the group id and the image id,
write the INCOMPLETE membership entry, write the group back-reference into
the image header  -  on failure of that step the INCOMPLETE entry is removed
with the rollback's own error ignored (line 212-213) and the step's error
returned  -  then flip the entry to ATTACHED, returning that final set's
result. -/
def group_image_add (env : Env) (gp : Int) (w : World) (g : String)
    (imgPool : Int) (imageName : String) : Int × World :=
  match dirGetId w g with
  | none => (retENOENT, w)
  | some gid =>
  match alookup w.imageDirFwd (imgPool, imageName) with
  | none => (retENOENT, w)
  | some iid =>
  if env.setIncompleteRes < 0 then (env.setIncompleteRes, w)
  else
  let w1 := mapHeader w gid (fun h =>
    { h with
      images := upsertImageStatus h.images
        { image_id := iid, pool_id := imgPool, state := .incomplete } })
  if env.addRefRes < 0 then
    let w2 :=
      if env.rollbackRes < 0 then w1
      else mapHeader w1 gid (fun h =>
        { h with
          images := h.images.filter
            (fun x => decide (¬ (x.image_id = iid ∧ x.pool_id = imgPool))) })
    (env.addRefRes, w2)
  else
  let w2 := setImageGroupRef w1 imgPool iid (some (gid, gp))
  if env.setAttachedRes < 0 then (env.setAttachedRes, w2)
  else
    (env.setAttachedRes, mapHeader w2 gid (fun h =>
      { h with
        images := upsertImageStatus h.images
          { image_id := iid, pool_id := imgPool, state := .attached } }))

/-- Some group-snapshot record of group `g` is named `s` and COMPLETE. -/
def hasCompleteNamed (w : World) (g s : String) : Bool :=
  match dirGetId w g with
  | none => false
  | some gid =>
  match headerOf w gid with
  | none => false
  | some h => h.snaps.any (fun r => decide (r.name = s ∧ r.state = .complete))

/-- The image (pool, iid) exists and one of its snapshots satisfies `q`. -/
def imageHasSnapL (l : List Image) (pool : Int) (iid : String) (q : ImgSnap → Bool) : Bool :=
  match findImageL l pool iid with
  | none => false
  | some img => img.snaps.any q

/-- World-level form of `imageHasSnapL`. -/
def imageHasSnap (w : World) (pool : Int) (iid : String) (q : ImgSnap → Bool) : Bool :=
  imageHasSnapL w.images pool iid q

/-- An ImageSnapshotRef resolves: the image it names exists and carries a
snapshot with the recorded snap id. -/
def snapRefResolves (w : World) (ref : ImageSnapshotRef) : Bool :=
  imageHasSnap w ref.pool ref.image_id (fun sn => decide (sn.id = ref.snap_id))

/-- Every COMPLETE record of group `g` named `s` has all its snaps entries
resolving to existing per-image snapshots. -/
def allCompleteRefsResolve (w : World) (g s : String) : Bool :=
  match dirGetId w g with
  | none => true
  | some gid =>
  match headerOf w gid with
  | none => true
  | some h =>
      h.snaps.all (fun r =>
        if r.name = s ∧ r.state = .complete then
          r.snaps.all (fun ref => snapRefResolves w ref)
        else true)

/-- Some group-snapshot record of group `g` carries name `s` (in any
state). -/
def hasRecNamed (w : World) (g s : String) : Bool :=
  match dirGetId w g with
  | none => false
  | some gid =>
  match headerOf w gid with
  | none => false
  | some h => h.snaps.any (fun r => decide (r.name = s))

/-- An environment in which every external call succeeds. -/
def envOk : Env :=
  { openRes := fun _ => 0, lockRes := fun _ => 0, nextSeqRes := 0,
    savePendingRes := 0, snapCreateRes := fun _ => 0, saveCompleteRes := 0,
    snapRemoveRes := fun _ => 0, recordRemoveRes := 0, setIncompleteRes := 0,
    addRefRes := 0, rollbackRes := 0, setAttachedRes := 0 }

/-- An environment in which the one per-image snapshot create fails. -/
def envSnapFail : Env := { envOk with snapCreateRes := fun _ => -5 }

/-- A group "g" (id "gid") with one attached member image "img1" (pool 1,
name "foo"), no snapshots yet. -/
def hBase : GroupHeader :=
  { images := [{ image_id := "img1", pool_id := 1, state := .attached }],
    snapSeq := 0, snaps := [] }

def imgBase : Image :=
  { pool := 1, id := "img1", nextSnapId := 1, snaps := [], groupRef := some ("gid", 1) }

def wBase : World :=
  { groupDir := [("g", "gid")],
    headers := [("gid", hBase)],
    imageDirFwd := [((1, "foo"), "img1")],
    imageDirRev := [((1, "img1"), "foo")],
    images := [imgBase] }

/-- The single member-image entry of hBase. -/
def stBase : GroupImageStatus := { image_id := "img1", pool_id := 1, state := .attached }

/-- What group_snap_create does to `wBase` when every call succeeds. -/
def createOutOk : Option (Int × World × List Ev) :=
  group_snap_create envOk 1 wBase "g" "s"

def wBaseAfterOk : World := (createOutOk.getD (0, wBase, [])).2.1

def trBaseAfterOk : List Ev := (createOutOk.getD (0, wBase, [])).2.2

/-- What group_snap_create does to `wBase` when the per-image snapshot
create fails (after the PENDING record was persisted). -/
def createOutFail : Option (Int × World × List Ev) :=
  group_snap_create envSnapFail 1 wBase "g" "s"

def wBaseAfterFail : World := (createOutFail.getD (0, wBase, [])).2.1

def trBaseAfterFail : List Ev := (createOutFail.getD (0, wBase, [])).2.2

/-- A PENDING group-snapshot record named "s". -/
def pendRec1 : GroupSnapRec :=
  { id := 1, uuid := "", name := "s", state := .pending, snaps := [] }

def hPend : GroupHeader := { images := [], snapSeq := 1, snaps := [pendRec1] }

/-- A group whose header holds the PENDING record `pendRec1`. -/
def wPend : World :=
  { groupDir := [("g", "gid")],
    headers := [("gid", hPend)],
    imageDirFwd := [], imageDirRev := [], images := [] }

/-- A recorded ref whose image id "old" is stale: the directory still maps
id "old" to name "foo", but name "foo" now maps to a recreated image with
id "new". -/
def refOld : ImageSnapshotRef := { pool := 1, image_id := "old", snap_id := 5 }

def compRecOld : GroupSnapRec :=
  { id := 1, uuid := "", name := "s", state := .complete, snaps := [refOld] }

def imgNew : Image :=
  { pool := 1, id := "new", nextSnapId := 1, snaps := [], groupRef := none }

def wMismatch : World :=
  { groupDir := [("g", "gid")],
    headers := [("gid", { images := [], snapSeq := 1, snaps := [compRecOld] })],
    imageDirFwd := [((1, "foo"), "new")],
    imageDirRev := [((1, "old"), "foo")],
    images := [imgNew] }

/-- 1024 records named "r" filling the first listing page, with a 1025th
record named "s" beyond it. -/
def rRec : GroupSnapRec := { id := 0, uuid := "", name := "r", state := .pending, snaps := [] }

def sRec : GroupSnapRec := { id := 0, uuid := "", name := "s", state := .pending, snaps := [] }

def h1025 : GroupHeader :=
  { images := [], snapSeq := 0, snaps := List.replicate 1024 rRec ++ [sRec] }

def w1025 : World :=
  { groupDir := [("g", "gid")],
    headers := [("gid", h1025)],
    imageDirFwd := [], imageDirRev := [], images := [] }

/-- An environment in which writing the group back-reference into the image
header (attach step 2) fails with -5 and the rollback of step 1 itself
fails with -7. -/
def envAddFail : Env := { envOk with addRefRes := -5, rollbackRes := -7 }

/-- The same step-2 failure with the rollback succeeding. -/
def envAddFailRollbackOk : Env := { envOk with addRefRes := -5 }

def addFailOut : Int × World := group_image_add envAddFailRollbackOk 1 wBase "g" 1 "foo"

end Grp

namespace CephCodec

/-- A concrete version-5 cls_rbd_snap payload whose snapshot-ref
discriminant is the unrecognized value 7. -/
def blob7payload : List Nat :=
  encU64 1 ++ encBytes [] ++ encU64 0 ++ encU64 0 ++ parentDefault.encode ++
  encU8 0 ++ encU64 0 ++ encU32 7

/-- The framed version-5 blob around `blob7payload`. -/
def blob7 : List Nat := 5 :: 1 :: encU32 blob7payload.length ++ blob7payload

/-- Concrete codec values for the round-trip witness. -/
def parent0 : ClsRbdParent := { pool := 3, id := [102, 111, 111], snapid := 9, overlap := 512 }

def snap0 : ClsRbdSnap :=
  { id := 4, name := [115, 49], image_size := 1024, features := 5,
    protection_status := 2, parent := parent0, flags := 3,
    snapshot_ref := .groupMember 2 [103] [49] }

end CephCodec

namespace CephCodec

theorem decU8_enc (n : Nat) (rest : List Nat) :
    decU8 (encU8 n ++ rest) = some (n % 256, rest) := rfl

theorem decU32_enc (n : Nat) (rest : List Nat) :
    decU32 (encU32 n ++ rest) = some (n % 4294967296, rest) := by
  simp only [encU32, decU32, List.cons_append, List.nil_append]
  congr 1
  congr 1
  omega

theorem decU64_enc (n : Nat) (rest : List Nat) :
    decU64 (encU64 n ++ rest) = some (n % 18446744073709551616, rest) := by
  simp only [encU64, decU64, List.cons_append, List.nil_append]
  congr 1
  congr 1
  omega

theorem decU8_enc_small (n : Nat) (rest : List Nat) (h : n < 256) :
    decU8 (encU8 n ++ rest) = some (n, rest) := by
  rw [decU8_enc, Nat.mod_eq_of_lt h]

theorem decU32_enc_small (n : Nat) (rest : List Nat) (h : n < 4294967296) :
    decU32 (encU32 n ++ rest) = some (n, rest) := by
  rw [decU32_enc, Nat.mod_eq_of_lt h]

theorem decU64_enc_small (n : Nat) (rest : List Nat) (h : n < 18446744073709551616) :
    decU64 (encU64 n ++ rest) = some (n, rest) := by
  rw [decU64_enc, Nat.mod_eq_of_lt h]

theorem decU64_enc_small_nil (n : Nat) (h : n < 18446744073709551616) :
    decU64 (encU64 n) = some (n, []) := by
  have := decU64_enc_small n [] h
  simpa using this

theorem decS64_enc (i : Int) (rest : List Nat)
    (hlo : -9223372036854775808 ≤ i) (hhi : i < 9223372036854775808) :
    decS64 (encS64 i ++ rest) = some (i, rest) := by
  have hmod : (0 : Int) ≤ i % (18446744073709551616 : Int) := Int.emod_nonneg i (by norm_num)
  have hmodlt : i % (18446744073709551616 : Int) < 18446744073709551616 :=
    Int.emod_lt_of_pos i (by norm_num)
  have htn : ((i % (18446744073709551616 : Int)).toNat : Int) =
      i % (18446744073709551616 : Int) := Int.toNat_of_nonneg hmod
  have hlt : (i % (18446744073709551616 : Int)).toNat < 18446744073709551616 := by
    omega
  simp only [encS64, decS64, decU64_enc_small _ _ hlt]
  congr 1
  congr 1
  split
  · next hsmall =>
      have : i % (18446744073709551616 : Int) = i := by omega
      omega
  · next hbig =>
      have : i % (18446744073709551616 : Int) = i + 18446744073709551616 := by omega
      omega

theorem decBytes_enc (s : List Nat) (rest : List Nat) (h : s.length < 4294967296) :
    decBytes (encBytes s ++ rest) = some (s, rest) := by
  simp only [encBytes, decBytes, List.append_assoc, decU32_enc_small _ _ h]
  have hlen : ¬ (s ++ rest).length < s.length := by
    simp [List.length_append]
  rw [if_neg hlen]
  simp [List.take_left, List.drop_left]

theorem parent_decode_encode (p : ClsRbdParent) (rest : List Nat) (h : p.wf) :
    ClsRbdParent.decode (p.encode ++ rest) = some (p, rest) := by
  obtain ⟨h1, h2, h3, h4, h5⟩ := h
  have hidlen : p.id.length < 4294967296 := by omega
  have hplen :
      (encS64 p.pool ++ encBytes p.id ++ encU64 p.snapid ++ encU64 p.overlap).length
        < 4294967296 := by
    simp [encS64, encU64, encBytes, encU32, List.length_append]
    omega
  simp only [ClsRbdParent.encode, ClsRbdParent.decode, List.cons_append, decU8]
  rw [if_neg (by norm_num)]
  rw [List.append_assoc, decU32_enc_small _ _ hplen]
  dsimp only
  have hlen : ¬ ((encS64 p.pool ++ encBytes p.id ++ encU64 p.snapid ++ encU64 p.overlap)
      ++ rest).length <
      (encS64 p.pool ++ encBytes p.id ++ encU64 p.snapid ++ encU64 p.overlap).length := by
    simp [List.length_append]
  rw [if_neg hlen]
  rw [List.take_left, List.drop_left]
  simp only [List.append_assoc]
  rw [decS64_enc _ _ h1 h2]
  dsimp only
  rw [decBytes_enc _ _ hidlen]
  dsimp only
  rw [decU64_enc_small _ _ h4]
  dsimp only
  rw [decU64_enc_small_nil _ h5]

theorem decSnapRefTail_enc (r : SnapshotRef) (rest : List Nat) (h : r.wf) :
    decSnapRefTail (encSnapshotRef r ++ rest) = some (r, rest) := by
  cases r with
  | selfStanding =>
      simp only [encSnapshotRef, decSnapRefTail, decU32_enc_small 0 rest (by norm_num)]
  | groupMember gp gid sid =>
      obtain ⟨h1, h2, h3, h4⟩ := h
      simp only [encSnapshotRef, decSnapRefTail, List.append_assoc,
        decU32_enc_small 1 _ (by norm_num)]
      rw [decS64_enc _ _ h1 h2]
      dsimp only
      rw [decBytes_enc _ _ (by omega)]
      dsimp only
      rw [decBytes_enc _ _ (by omega)]

theorem decSnapRefTail_enc_nil (r : SnapshotRef) (h : r.wf) :
    decSnapRefTail (encSnapshotRef r) = some (r, []) := by
  have := decSnapRefTail_enc r [] h
  simpa using this

theorem snap_decode_encode (s : ClsRbdSnap) (rest : List Nat) (h : s.wf) :
    ClsRbdSnap.decode (s.encode ++ rest) = some (s, rest) := by
  obtain ⟨h1, h2, h3, h4, h5, hp, h6, hr⟩ := h
  have hnamelen : s.name.length < 4294967296 := by omega
  have hparentlen : s.parent.encode.length < 600000000 := by
    obtain ⟨p1, p2, p3, p4, p5⟩ := hp
    simp [ClsRbdParent.encode, encS64, encU64, encBytes, encU32, List.length_append]
    omega
  have hreflen : (encSnapshotRef s.snapshot_ref).length < 1200000000 := by
    cases hsr : s.snapshot_ref with
    | selfStanding => simp [encSnapshotRef, encU32]
    | groupMember gp gid sid =>
        rw [hsr] at hr
        obtain ⟨r1, r2, r3, r4⟩ := hr
        simp [encSnapshotRef, encU32, encS64, encU64, encBytes, List.length_append]
        omega
  have hplen :
      (encU64 s.id ++ encBytes s.name ++ encU64 s.image_size ++ encU64 s.features ++
       s.parent.encode ++ encU8 s.protection_status ++ encU64 s.flags ++
       encSnapshotRef s.snapshot_ref).length < 4294967296 := by
    simp only [List.length_append]
    simp [encU64, encU8, encBytes, encU32]
    omega
  simp only [ClsRbdSnap.encode, ClsRbdSnap.decode, List.cons_append, decU8]
  rw [if_neg (by norm_num)]
  rw [List.append_assoc, decU32_enc_small _ _ hplen]
  dsimp only
  have hlen : ¬ ((encU64 s.id ++ encBytes s.name ++ encU64 s.image_size ++
      encU64 s.features ++ s.parent.encode ++ encU8 s.protection_status ++
      encU64 s.flags ++ encSnapshotRef s.snapshot_ref) ++ rest).length <
      (encU64 s.id ++ encBytes s.name ++ encU64 s.image_size ++ encU64 s.features ++
       s.parent.encode ++ encU8 s.protection_status ++ encU64 s.flags ++
       encSnapshotRef s.snapshot_ref).length := by
    simp [List.length_append]
  rw [if_neg hlen]
  rw [List.take_left, List.drop_left]
  simp only [List.append_assoc]
  rw [decU64_enc_small _ _ h1]
  dsimp only
  rw [decBytes_enc _ _ hnamelen]
  dsimp only
  rw [decU64_enc_small _ _ h3]
  dsimp only
  rw [decU64_enc_small _ _ h4]
  dsimp only
  rw [if_pos (by norm_num)]
  rw [parent_decode_encode _ _ hp]
  dsimp only
  rw [if_pos (by norm_num)]
  simp only [encU8, List.cons_append, List.nil_append]
  rw [Nat.mod_eq_of_lt h5]
  rw [if_pos (by norm_num)]
  rw [decU64_enc_small _ _ h6]
  dsimp only
  rw [decSnapRefTail_enc_nil _ hr]
  simp

/-- The byte string a version-1 writer of cls_rbd_snap produced:
ENCODE_START(1, 1) framing around only id, name, image_size and features
(the later fields did not yet exist, per the struct_v gates in
cls_rbd_snap::decode). -/
theorem snap_decode_v1 (id : Nat) (name : List Nat) (image_size features : Nat)
    (rest : List Nat) (h1 : id < 18446744073709551616) (h2 : name.length < 536870912)
    (h3 : image_size < 18446744073709551616) (h4 : features < 18446744073709551616) :
    ClsRbdSnap.decode (snapV1Blob id name image_size features ++ rest) =
      some ({ id := id, name := name, image_size := image_size, features := features,
              protection_status := RBD_PROTECTION_STATUS_UNPROTECTED,
              parent := parentDefault, flags := 0,
              snapshot_ref := .selfStanding }, rest) := by
  have hnamelen : name.length < 4294967296 := by omega
  have hplen : (encU64 id ++ encBytes name ++ encU64 image_size ++
      encU64 features).length < 4294967296 := by
    simp [encU64, encBytes, encU32, List.length_append]
    omega
  simp only [snapV1Blob, ClsRbdSnap.decode, List.cons_append, decU8]
  rw [if_neg (by norm_num)]
  rw [List.append_assoc, decU32_enc_small _ _ hplen]
  dsimp only
  have hlen : ¬ ((encU64 id ++ encBytes name ++ encU64 image_size ++ encU64 features)
      ++ rest).length <
      (encU64 id ++ encBytes name ++ encU64 image_size ++ encU64 features).length := by
    simp [List.length_append]
  rw [if_neg hlen]
  rw [List.take_left, List.drop_left]
  simp only [List.append_assoc]
  rw [decU64_enc_small _ _ h1]
  dsimp only
  rw [decBytes_enc _ _ hnamelen]
  dsimp only
  rw [decU64_enc_small _ _ h3]
  dsimp only
  rw [decU64_enc_small_nil _ h4]
  dsimp only
  rfl

end CephCodec


namespace Grp

theorem lastErr_cons_zero (r : Int) (t : List Int) (h : lastErr (r :: t) = 0) :
    lastErr t = 0 ∧ ¬ r < 0 := by
  simp only [lastErr] at h
  by_cases he : lastErr t ≠ 0
  · rw [if_pos he] at h
    exact absurd h he
  · rw [if_neg he] at h
    by_cases hr : r < 0
    · rw [if_pos hr] at h
      omega
    · exact ⟨not_not.mp he, hr⟩

theorem alookup_map_upd {α β : Type} [DecidableEq α] (l : List (α × β)) (k : α) (f : β → β) :
    alookup (l.map (fun p => if p.1 = k then (p.1, f p.2) else p)) k = (alookup l k).map f := by
  induction l with
  | nil => rfl
  | cons p t ih =>
      obtain ⟨a, b⟩ := p
      simp only [List.map_cons]
      by_cases ha : a = k
      · subst ha
        rw [if_pos rfl]
        simp [alookup, ih]
      · rw [if_neg ha]
        simp [alookup, ha, ih]

theorem headerOf_mapHeader (w : World) (gid : String) (f : GroupHeader → GroupHeader) :
    headerOf (mapHeader w gid f) gid = (headerOf w gid).map f := by
  simpa [headerOf, mapHeader] using alookup_map_upd w.headers gid f

theorem hasCompleteNamed_congr (w w' : World) (g s : String)
    (hdir : w'.groupDir = w.groupDir) (hhead : w'.headers = w.headers) :
    hasCompleteNamed w' g s = hasCompleteNamed w g s := by
  unfold hasCompleteNamed dirGetId headerOf
  rw [hdir, hhead]

theorem hasRecNamed_congr (w w' : World) (g s : String)
    (hdir : w'.groupDir = w.groupDir) (hhead : w'.headers = w.headers) :
    hasRecNamed w' g s = hasRecNamed w g s := by
  unfold hasRecNamed dirGetId headerOf
  rw [hdir, hhead]

theorem mem_upsertRec (h : GroupHeader) (rec : GroupSnapRec) :
    rec ∈ (upsertRec h rec).snaps := by
  unfold upsertRec
  split
  · next hany =>
      simp only [List.any_eq_true, decide_eq_true_eq] at hany
      obtain ⟨r0, hr0, hid⟩ := hany
      simp only [List.mem_map]
      exact ⟨r0, hr0, by rw [if_pos hid]⟩
  · simp

theorem upsertRec_pending_no_complete (h : GroupHeader) (seq : Nat) (s : String)
    (hpre : ∀ r ∈ h.snaps, ¬(r.name = s ∧ r.state = .complete)) :
    ∀ r ∈ (upsertRec h (pendingRec seq s)).snaps, ¬(r.name = s ∧ r.state = .complete) := by
  unfold upsertRec
  split
  · intro r hr
    simp only [List.mem_map] at hr
    obtain ⟨r0, hr0, heq⟩ := hr
    by_cases hid : r0.id = (pendingRec seq s).id
    · rw [if_pos hid] at heq
      subst heq
      rintro ⟨-, hst⟩
      simp [pendingRec] at hst
    · rw [if_neg hid] at heq
      subst heq
      exact hpre r0 hr0
  · intro r hr
    simp only [List.mem_append, List.mem_singleton] at hr
    rcases hr with hr | hr
    · exact hpre r hr
    · subst hr
      rintro ⟨-, hst⟩
      simp [pendingRec] at hst

theorem upsertRec_complete_unique (h : GroupHeader) (rec : GroupSnapRec) (s : String)
    (hpre : ∀ r ∈ h.snaps, ¬(r.name = s ∧ r.state = .complete)) :
    ∀ r ∈ (upsertRec h rec).snaps, (r.name = s ∧ r.state = .complete) → r = rec := by
  unfold upsertRec
  split
  · intro r hr hc
    simp only [List.mem_map] at hr
    obtain ⟨r0, hr0, heq⟩ := hr
    by_cases hid : r0.id = rec.id
    · rw [if_pos hid] at heq
      exact heq.symm
    · rw [if_neg hid] at heq
      subst heq
      exact absurd hc (hpre r0 hr0)
  · intro r hr hc
    simp only [List.mem_append, List.mem_singleton] at hr
    rcases hr with hr | hr
    · exact absurd hc (hpre r hr)
    · exact hr

theorem mem_firstPage_upsert (h : GroupHeader) (rec : GroupSnapRec)
    (hlen : h.snaps.length < 1024) :
    rec ∈ firstPage (upsertRec h rec).snaps 1024 := by
  have hmem := mem_upsertRec h rec
  have hlen2 : (upsertRec h rec).snaps.length ≤ 1024 := by
    unfold upsertRec
    split
    · simpa using Nat.le_of_lt hlen
    · simp only [List.length_append, List.length_singleton]
      omega
  unfold firstPage
  rwa [List.take_of_length_le hlen2]

theorem firstPage_any_of_mem (l : List GroupSnapRec) (s : String) (rec : GroupSnapRec)
    (hmem : rec ∈ firstPage l 1024) (hname : rec.name = s) :
    (firstPage l 1024).any (fun r => decide (r.name = s)) = true := by
  simp only [List.any_eq_true, decide_eq_true_eq]
  exact ⟨rec, hmem, hname⟩

end Grp

namespace Grp

/-- C10: the amended pagination behavior.  group_image_list's loop
re-initializes its cursor and compares the page size against max_read, so
with 1024 or more membership entries it re-requests the same first page
forever (no amount of fuel terminates it), and with fewer it returns the
complete listing in one iteration.  group_snap_list_cls's loop also
re-initializes its cursor, but its condition compares the cls call's
return code (0 on success) with max_read, so it always terminates after
exactly one iteration, returning just the first page. -/
theorem pagination_loops_behavior :
    (∀ (entries acc : List Nat) (fuel : Nat), 1024 ≤ entries.length →
        groupImageListLoop entries fuel acc = none) ∧
    (∀ (entries acc : List Nat) (fuel : Nat), entries.length < 1024 →
        groupImageListLoop entries (fuel + 1) acc = some (acc ++ entries)) ∧
    (∀ (entries acc : List Nat) (fuel : Nat),
        groupSnapListClsLoop entries (fuel + 1) acc = some (acc ++ firstPage entries 1024)) := by
  refine ⟨?_, ?_, ?_⟩
  · intro entries acc fuel h
    induction fuel generalizing acc with
    | zero => rfl
    | succ n ih =>
        have hlen : (firstPage entries 1024).length = 1024 := by
          simp only [firstPage, List.length_take]
          omega
        simp only [groupImageListLoop, hlen, if_pos]
        exact ih _
  · intro entries acc fuel h
    simp only [groupImageListLoop]
    rw [show firstPage entries 1024 = entries from List.take_of_length_le (by omega)]
    rw [if_neg (by omega : ¬ entries.length = 1024)]
  · intro entries acc fuel
    simp [groupSnapListClsLoop]

/-- C10 witness: the image-listing loop spins forever on a full page and
completes on a short one; the snapshot-listing loop terminates after one
iteration. -/
theorem pagination_loops_behavior_witness :
    groupImageListLoop (List.replicate 1024 (0 : Nat)) 5 [] = none ∧
    groupImageListLoop [(0 : Nat)] (0 + 1) [] = some ([] ++ [(0 : Nat)]) ∧
    groupSnapListClsLoop [(0 : Nat)] (0 + 1) [] = some ([] ++ firstPage [(0 : Nat)] 1024) :=
  ⟨pagination_loops_behavior.1 (List.replicate 1024 0) [] 5 (by simp),
   pagination_loops_behavior.2.1 [0] [] 0 (by simp),
   pagination_loops_behavior.2.2 [0] [] 0⟩

/-- C10 counterexample: with exactly 1024 backing entries (one full page),
the group_snap_list_cls loop terminates at once with that page, where the
claim predicted it would request the same first page forever. -/
theorem group_snap_list_cls_full_page_terminates :
    groupSnapListClsLoop (List.replicate 1024 (0 : Nat)) 2 [] =
      some (List.replicate 1024 (0 : Nat)) ∧
    1024 ≤ (List.replicate 1024 (0 : Nat)).length := by
  constructor
  · simp [groupSnapListClsLoop, firstPage, List.take_replicate]
  · simp

end Grp

namespace CephCodec

/-- C9: the amended unknown-discriminant behavior.  Decoding never fails on
an unrecognized discriminant; for the SnapshotNamespace of cls_rbd_types.h
the result is Unknown, but for the snapshot-ref variant of
cls_rbd_snap::decode the default switch branch selects SelfStandingSnapshot
(the SnapshotRef variant has no Unknown alternative at all). -/
theorem unknown_discriminant_decode (t : Nat) (l1 : List Nat)
    (ht : t < 4294967296) (h0 : t ≠ 0) (h1 : t ≠ 1) :
    decodeSnapshotNamespace (encU32 t ++ l1) = some (.unknown, l1) ∧
    decSnapRefTail (encU32 t ++ l1) = some (.selfStanding, l1) := by
  cases t with
  | zero => exact absurd rfl h0
  | succ t' =>
      cases t' with
      | zero => exact absurd rfl h1
      | succ t'' =>
          constructor
          · simp only [decodeSnapshotNamespace, decU32_enc_small _ _ ht]
          · simp only [decSnapRefTail, decU32_enc_small _ _ ht]

/-- C9 witness: discriminant 7 decodes to Unknown as a namespace and to
SelfStanding as a snapshot ref. -/
theorem unknown_discriminant_decode_witness :
    decodeSnapshotNamespace (encU32 7 ++ [9]) = some (.unknown, [9]) ∧
    decSnapRefTail (encU32 7 ++ [9]) = some (.selfStanding, [9]) :=
  unknown_discriminant_decode 7 [9] (by norm_num) (by norm_num) (by norm_num)

/-- C9 counterexample: a version-5 cls_rbd_snap blob whose snapshot-ref
discriminant is the unrecognized value 7 decodes successfully, and the
resulting variant is SelfStanding, not an Unknown variant (SnapshotRef has
none); the claim said every unrecognized discriminant yields Unknown. -/
theorem snap_ref_unknown_discriminant_self_standing :
    (ClsRbdSnap.decode blob7).map (fun p => p.1.snapshot_ref) =
      some SnapshotRef.selfStanding := by decide

/-- C8: the versioned-codec round-trip law.  decode(encode(r)) = r for every
representable cls_rbd_parent and cls_rbd_snap value (preserving trailing
bytes), and decoding a version-1 cls_rbd_snap blob succeeds and
default-initializes the later fields: protection_status UNPROTECTED, flags
0, snapshot_ref SelfStanding, parent default. -/
theorem cls_rbd_codec_round_trip (p : ClsRbdParent) (s : ClsRbdSnap) (rest : List Nat)
    (hp : p.wf) (hs : s.wf) :
    ClsRbdParent.decode (p.encode ++ rest) = some (p, rest) ∧
    ClsRbdSnap.decode (s.encode ++ rest) = some (s, rest) ∧
    (∀ (id : Nat) (nm : List Nat) (sz ft : Nat) (rest2 : List Nat),
      id < 18446744073709551616 → nm.length < 536870912 →
      sz < 18446744073709551616 → ft < 18446744073709551616 →
      ClsRbdSnap.decode (snapV1Blob id nm sz ft ++ rest2) =
        some ({ id := id, name := nm, image_size := sz, features := ft,
                protection_status := RBD_PROTECTION_STATUS_UNPROTECTED,
                parent := parentDefault, flags := 0,
                snapshot_ref := .selfStanding }, rest2)) :=
  ⟨parent_decode_encode p rest hp, snap_decode_encode s rest hs,
   fun id nm sz ft rest2 h1 h2 h3 h4 => snap_decode_v1 id nm sz ft rest2 h1 h2 h3 h4⟩

/-- C8 witness: the round-trip at a concrete parent and snapshot record. -/
theorem cls_rbd_codec_round_trip_witness :
    ClsRbdParent.decode (parent0.encode ++ [7]) = some (parent0, [7]) ∧
    ClsRbdSnap.decode (snap0.encode ++ [7]) = some (snap0, [7]) :=
  ⟨(cls_rbd_codec_round_trip parent0 snap0 [7] (by decide) (by decide)).1,
   (cls_rbd_codec_round_trip parent0 snap0 [7] (by decide) (by decide)).2.1⟩

end CephCodec

namespace Grp

/-- C7: when attach step 2 (writing the group back-reference into the image
header) fails, the call returns that step's error whatever the rollback's
own result is, the image headers are untouched, and when the best-effort
rollback succeeds the INCOMPLETE entry of step 1 is gone from the group
header. -/
theorem group_image_add_rollback_keeps_error (env : Env) (gp : Int) (w : World)
    (g : String) (imgPool : Int) (imageName : String) (gid iid : String)
    (hgid : dirGetId w g = some gid)
    (hiid : alookup w.imageDirFwd (imgPool, imageName) = some iid)
    (hinc : env.setIncompleteRes = 0) (hfail : env.addRefRes < 0) :
    ∀ r w', group_image_add env gp w g imgPool imageName = (r, w') →
      r = env.addRefRes ∧
      w'.images = w.images ∧
      (0 ≤ env.rollbackRes → ∀ h', headerOf w' gid = some h' →
        h'.images.all (fun x => decide (¬ (x.image_id = iid ∧ x.pool_id = imgPool))) = true) := by
  intro r w' heq
  unfold group_image_add at heq
  rw [hgid] at heq
  dsimp only at heq
  rw [hiid] at heq
  dsimp only at heq
  rw [if_neg (by omega : ¬ env.setIncompleteRes < 0), if_pos hfail] at heq
  by_cases hrb : env.rollbackRes < 0
  · rw [if_pos hrb] at heq
    obtain ⟨rfl, rfl⟩ := Prod.mk.injEq .. ▸ heq
    exact ⟨rfl, rfl, fun hge => absurd hge (by omega)⟩
  · rw [if_neg hrb] at heq
    obtain ⟨rfl, rfl⟩ := Prod.mk.injEq .. ▸ heq
    refine ⟨rfl, rfl, fun _ h' hh' => ?_⟩
    rw [headerOf_mapHeader, headerOf_mapHeader] at hh'
    cases hh0 : headerOf w gid with
    | none => rw [hh0] at hh'; simp at hh'
    | some h0 =>
        rw [hh0] at hh'
        simp only [Option.map_some'] at hh'
        obtain rfl := (Option.some.injEq ..).mp hh'
        simp only [List.all_eq_true]
        intro x hx
        exact (List.mem_filter.mp hx).2

/-- C7 witness: the concrete attach failure on wBase with a succeeding
rollback returns the step-2 error and leaves no membership entry. -/
theorem group_image_add_rollback_keeps_error_witness :
    addFailOut.1 = envAddFailRollbackOk.addRefRes ∧
    addFailOut.2.images = wBase.images ∧
    (0 ≤ envAddFailRollbackOk.rollbackRes → ∀ h', headerOf addFailOut.2 "gid" = some h' →
      h'.images.all (fun x => decide (¬ (x.image_id = "img1" ∧ x.pool_id = 1))) = true) :=
  group_image_add_rollback_keeps_error envAddFailRollbackOk 1 wBase "g" 1 "foo" "gid" "img1"
    (by decide) (by decide) (by decide) (by decide) addFailOut.1 addFailOut.2 rfl

/-- C4: the claim's scenario is a crash, not a direct removal.  Finding
the record named s in a non-COMPLETE state (here wPend's PENDING record),
group_snap_remove skips the COMPLETE branch entirely  -  no per-image
operation, no record removal  -  and falls to the cleanup label with n still
the listed-record count (at least 1, the record was just found) while
ictxs and on_finishes are still empty; the loop's `ictxs[i]` and
`delete on_finishes[i]` (Group.cc lines 730-734) then index an empty
vector out of bounds through its null data pointer  -  undefined behavior,
modelled `none`  -  so the function never performs the claimed successful
return, and the group-level record is not removed. -/
theorem group_snap_remove_pending_crashes :
    group_snap_remove envOk wPend "g" "s" = none ∧
    hasRecNamed wPend "g" "s" = true ∧
    pendRec1.state ≠ GroupSnapState.complete :=
  ⟨by decide, by decide, by decide⟩

/-- C5: in wMismatch the image recorded as "old" was recreated under id
"new"; all opens succeed, the identity check trips, the removal aborts
before any per-image snapshot remove and before the record removal (the
world comes back unchanged, the trace holds only the open)  -  but the
function returns 0, not -EAGAIN: line 681 of Group.cc declares a second
ret_code inside the COMPLETE branch, the -EAGAIN lands in that shadowing
variable, and the cleanup label returns the outer ret_code, still 0. -/
theorem group_snap_remove_mismatch_returns_zero :
    group_snap_remove envOk wMismatch "g" "s" = some (0, wMismatch, [Ev.openImg 0]) ∧
    mismatchAny [{ pool := 1, id := "new" }] compRecOld.snaps = true ∧
    (0 : Int) ≠ retEAGAIN :=
  ⟨by decide, by decide, by decide⟩

theorem dup_first_page_eexist (env : Env) (gp : Int) (w : World) (g s : String)
    (gid : String) (h : GroupHeader)
    (hgid : dirGetId w g = some gid) (hh : headerOf w gid = some h)
    (hdup : (firstPage h.snaps 1024).any (fun rec => decide (rec.name = s)) = true) :
    group_snap_create env gp w g s = some (retEEXIST, w, []) := by
  unfold group_snap_create
  rw [hgid]
  dsimp only
  rw [hh]
  dsimp only
  rw [if_pos hdup]

/-- C3 (amended): the duplicate-name check runs first and fails with
-EEXIST before any state mutation (unchanged world, empty trace) whenever a
record among the first listed page (1024 records) carries the name; a
colliding record beyond the first page is missed, because the listing the
check consumes is a single first page. -/
theorem group_snap_create_dup_first_page (env : Env) (gp : Int) (w : World) (g s : String)
    (gid : String) (h : GroupHeader)
    (hgid : dirGetId w g = some gid) (hh : headerOf w gid = some h)
    (hdup : (firstPage h.snaps 1024).any (fun rec => decide (rec.name = s)) = true) :
    group_snap_create env gp w g s = some (retEEXIST, w, []) :=
  dup_first_page_eexist env gp w g s gid h hgid hh hdup

/-- C3 witness: creating "s" again while the PENDING record "s" exists is
rejected with -EEXIST and no state change. -/
theorem group_snap_create_dup_first_page_witness :
    group_snap_create envOk 0 wPend "g" "s" = some (retEEXIST, wPend, []) :=
  group_snap_create_dup_first_page envOk 0 wPend "g" "s" "gid" hPend
    (by decide) (by decide) (by decide)

/-- C3 counterexample: w1025 holds 1025 records, the 1025th named "s"; the
duplicate check sees only the first 1024, so create succeeds (returns 0)
although a record named "s" exists  -  the claim said AlreadyExists is
returned whenever some existing record carries the name. -/
theorem group_snap_create_dup_beyond_page_missed :
    (group_snap_create envOk 0 w1025 "g" "s").map (fun x => x.1) = some 0 ∧
    hasRecNamed w1025 "g" "s" = true :=
  ⟨by decide, by decide⟩

end Grp

namespace Grp

theorem errFold_zero (e c : Int) (hc : c < 0) (h : (if e ≠ 0 then e else c) = 0) : False := by
  by_cases he : e ≠ 0
  · rw [if_pos he] at h
    exact he h
  · rw [if_neg he] at h
    omega

theorem findImageL_eq_keys (l : List Image) (pool : Int) (iid : String) (img : Image)
    (h : findImageL l pool iid = some img) : img.pool = pool ∧ img.id = iid := by
  have := List.find?_some h
  simpa using this

theorem findImageL_update_self (l : List Image) (pool : Int) (iid : String) (img' : Image)
    (hp : img'.pool = pool) (hi : img'.id = iid) :
    ∀ img0, findImageL l pool iid = some img0 →
      findImageL (updateImageL l pool iid img') pool iid = some img' := by
  induction l with
  | nil =>
      intro img0 h
      simp [findImageL] at h
  | cons im t ih =>
      intro img0 h
      by_cases hm : im.pool = pool ∧ im.id = iid
      · simp only [updateImageL, List.map_cons, if_pos hm]
        unfold findImageL
        rw [List.find?_cons_of_pos _ (by simp [hp, hi])]
      · have ht : findImageL t pool iid = some img0 := by
          unfold findImageL at h
          rwa [List.find?_cons_of_neg _ (by simpa using hm)] at h
        simp only [updateImageL, List.map_cons, if_neg hm]
        unfold findImageL
        rw [List.find?_cons_of_neg _ (by simpa using hm)]
        exact ih img0 ht

theorem findImageL_update_other (l : List Image) (pool : Int) (iid : String) (img' : Image)
    (pool' : Int) (iid' : String)
    (hp : img'.pool = pool) (hi : img'.id = iid) (hne : ¬(pool = pool' ∧ iid = iid')) :
    findImageL (updateImageL l pool iid img') pool' iid' = findImageL l pool' iid' := by
  induction l with
  | nil => rfl
  | cons im t ih =>
      by_cases hm : im.pool = pool ∧ im.id = iid
      · have him : ¬(im.pool = pool' ∧ im.id = iid') := by
          rintro ⟨h1, h2⟩
          exact hne ⟨hm.1.symm.trans h1, hm.2.symm.trans h2⟩
        have himg : ¬(img'.pool = pool' ∧ img'.id = iid') := by
          rintro ⟨h1, h2⟩
          exact hne ⟨hp.symm.trans h1, hi.symm.trans h2⟩
        simp only [updateImageL, List.map_cons, if_pos hm]
        unfold findImageL
        rw [List.find?_cons_of_neg _ (by simpa using himg),
          List.find?_cons_of_neg _ (by simpa using him)]
        exact ih
      · simp only [updateImageL, List.map_cons, if_neg hm]
        unfold findImageL
        by_cases hm' : im.pool = pool' ∧ im.id = iid'
        · rw [List.find?_cons_of_pos _ (by simpa using hm'),
            List.find?_cons_of_pos _ (by simpa using hm')]
        · rw [List.find?_cons_of_neg _ (by simpa using hm'),
            List.find?_cons_of_neg _ (by simpa using hm')]
          exact ih

theorem imageHasSnapL_update (l : List Image) (pool : Int) (iid : String)
    (img0 img' : Image) (hf : findImageL l pool iid = some img0)
    (hp : img'.pool = pool) (hi : img'.id = iid)
    (hsub : ∀ sn ∈ img0.snaps, sn ∈ img'.snaps)
    (pool' : Int) (iid' : String) (q : ImgSnap → Bool)
    (hh : imageHasSnapL l pool' iid' q = true) :
    imageHasSnapL (updateImageL l pool iid img') pool' iid' q = true := by
  by_cases hkey : pool = pool' ∧ iid = iid'
  · obtain ⟨h1, h2⟩ := hkey
    subst h1
    subst h2
    unfold imageHasSnapL at hh ⊢
    rw [hf] at hh
    rw [findImageL_update_self l pool iid img' hp hi img0 hf]
    simp only [List.any_eq_true] at hh ⊢
    obtain ⟨sn, hsn, hq⟩ := hh
    exact ⟨sn, hsub sn hsn, hq⟩
  · unfold imageHasSnapL at hh ⊢
    rw [findImageL_update_other l pool iid img' pool' iid' hp hi hkey]
    exact hh

theorem createSnapsAux_mono (env : Env) (gp : Int) (gid s : String) (seq : Nat) :
    ∀ (hs : List Handle) (i : Nat) (l : List Image) (pool : Int) (iid : String)
      (q : ImgSnap → Bool),
      imageHasSnapL l pool iid q = true →
      imageHasSnapL (createSnapsAux env gp gid s seq i hs l).images pool iid q = true := by
  intro hs
  induction hs with
  | nil =>
      intro i l pool iid q hh
      simpa [createSnapsAux] using hh
  | cons hd t ih =>
      intro i l pool iid q hh
      simp only [createSnapsAux]
      split
      · exact ih (i + 1) l pool iid q hh
      · split
        · exact ih (i + 1) l pool iid q hh
        · next img hfind =>
            split
            · exact ih (i + 1) l pool iid q hh
            · refine ih (i + 1) _ pool iid q ?_
              have hkeys := findImageL_eq_keys l hd.pool hd.id img hfind
              exact imageHasSnapL_update l hd.pool hd.id img _ hfind
                (by simp [hkeys.1]) (by simp [hkeys.2])
                (fun sn hsn => List.mem_append_left _ hsn) pool iid q hh

theorem createSnapsAux_refs_resolve (env : Env) (gp : Int) (gid s : String) (seq : Nat) :
    ∀ (hs : List Handle) (i : Nat) (l : List Image),
      (createSnapsAux env gp gid s seq i hs l).err = 0 →
      ∀ ref ∈ (createSnapsAux env gp gid s seq i hs l).refs,
        imageHasSnapL (createSnapsAux env gp gid s seq i hs l).images ref.pool ref.image_id
          (fun sn => decide (sn.id = ref.snap_id)) = true := by
  intro hs
  induction hs with
  | nil =>
      intro i l _ ref href
      simp [createSnapsAux] at href
  | cons hd t ih =>
      intro i l herr ref href
      by_cases hc : env.snapCreateRes i < 0
      · simp only [createSnapsAux, if_pos hc] at herr
        exact absurd herr (fun hh => errFold_zero _ _ hc hh)
      · cases hfind : findImageL l hd.pool hd.id with
        | none =>
            simp only [createSnapsAux, if_neg hc, hfind] at herr
            exact absurd herr (fun hh => errFold_zero _ _ (by norm_num [retENOENT]) hh)
        | some img =>
            by_cases hdup :
                (img.snaps.any fun sn => decide (sn.name = snapName s gid seq)) = true
            · simp only [createSnapsAux, if_neg hc, hfind, if_pos hdup] at herr
              exact absurd herr (fun hh => errFold_zero _ _ (by norm_num [retEEXIST]) hh)
            · simp only [createSnapsAux, if_neg hc, hfind, if_neg hdup] at herr href ⊢
              simp only [List.mem_cons] at href
              have hkeys := findImageL_eq_keys l hd.pool hd.id img hfind
              rcases href with rfl | href
              · refine createSnapsAux_mono env gp gid s seq t (i + 1) _ _ _ _ ?_
                unfold imageHasSnapL
                rw [findImageL_update_self l hd.pool hd.id _
                  (by simp [hkeys.1]) (by simp [hkeys.2]) img hfind]
                simp
              · exact ih (i + 1) _ herr ref href

theorem createSnapsAux_named (env : Env) (gp : Int) (gid s : String) (seq : Nat) :
    ∀ (hs : List Handle) (i : Nat) (l : List Image),
      (createSnapsAux env gp gid s seq i hs l).err = 0 →
      ∀ hd ∈ hs,
        imageHasSnapL (createSnapsAux env gp gid s seq i hs l).images hd.pool hd.id
          (fun sn => decide (sn.name = snapName s gid seq ∧
                             sn.ns = SnapNs.group gp gid seq)) = true := by
  intro hs
  induction hs with
  | nil =>
      intro i l _ hd hmem
      simp at hmem
  | cons hd0 t ih =>
      intro i l herr hd hmem
      by_cases hc : env.snapCreateRes i < 0
      · simp only [createSnapsAux, if_pos hc] at herr
        exact absurd herr (fun hh => errFold_zero _ _ hc hh)
      · cases hfind : findImageL l hd0.pool hd0.id with
        | none =>
            simp only [createSnapsAux, if_neg hc, hfind] at herr
            exact absurd herr (fun hh => errFold_zero _ _ (by norm_num [retENOENT]) hh)
        | some img =>
            by_cases hdup :
                (img.snaps.any fun sn => decide (sn.name = snapName s gid seq)) = true
            · simp only [createSnapsAux, if_neg hc, hfind, if_pos hdup] at herr
              exact absurd herr (fun hh => errFold_zero _ _ (by norm_num [retEEXIST]) hh)
            · simp only [createSnapsAux, if_neg hc, hfind, if_neg hdup] at herr ⊢
              simp only [List.mem_cons] at hmem
              have hkeys := findImageL_eq_keys l hd0.pool hd0.id img hfind
              rcases hmem with rfl | hmem
              · refine createSnapsAux_mono env gp gid s seq t (i + 1) _ _ _ _ ?_
                unfold imageHasSnapL
                rw [findImageL_update_self l hd.pool hd.id _
                  (by simp [hkeys.1]) (by simp [hkeys.2]) img hfind]
                simp
              · exact ih (i + 1) _ herr hd hmem

theorem openAll_zero_mem (env : Env) (w : World) :
    ∀ (ms : List Member) (i : Nat),
      lastErr ((openAll env w i ms).map OpenOut.res) = 0 →
      ∀ m ∈ ms, ∃ iid,
        alookup w.imageDirFwd (m.pool, m.name) = some iid ∧
        ({ pool := m.pool, id := iid } : Handle) ∈ (openAll env w i ms).filterMap OpenOut.hd := by
  intro ms
  induction ms with
  | nil =>
      intro i _ m hm
      simp at hm
  | cons m0 t ih =>
      intro i hz m hm
      simp only [openAll, List.map_cons] at hz
      obtain ⟨hzt, hzh⟩ := lastErr_cons_zero _ _ hz
      simp only [List.mem_cons] at hm
      by_cases he : env.openRes i < 0
      · refine absurd ?_ hzh
        unfold openOne
        rw [if_pos he]
        exact he
      · cases hfwd : alookup w.imageDirFwd (m0.pool, m0.name) with
        | none =>
            refine absurd ?_ hzh
            unfold openOne
            rw [if_neg he, hfwd]
            norm_num [retENOENT]
        | some iid0 =>
            cases hfi : findImage w m0.pool iid0 with
            | none =>
                refine absurd ?_ hzh
                unfold openOne
                rw [if_neg he, hfwd]
                dsimp only
                rw [hfi]
                norm_num [retENOENT]
            | some img0 =>
                have hhead : openOne env w i m0 =
                    { res := 0, hd := some { pool := m0.pool, id := iid0 } } := by
                  unfold openOne
                  rw [if_neg he, hfwd]
                  dsimp only
                  rw [hfi]
                rcases hm with rfl | hm
                · refine ⟨iid0, hfwd, ?_⟩
                  simp only [openAll, List.filterMap_cons, hhead]
                  simp
                · obtain ⟨iid, hfwd2, hmem2⟩ := ih (i + 1) hzt m hm
                  refine ⟨iid, hfwd2, ?_⟩
                  simp only [openAll, List.filterMap_cons, hhead]
                  simp [hmem2]

theorem resolveMembers_ok_mem (w : World) :
    ∀ (sts : List GroupImageStatus) (ms : List Member),
      resolveMembers w sts = .ok ms →
      ∀ st ∈ sts, ∃ nm, alookup w.imageDirRev (st.pool_id, st.image_id) = some nm ∧
        ({ pool := st.pool_id, name := nm } : Member) ∈ ms := by
  intro sts
  induction sts with
  | nil =>
      intro ms _ st hst
      simp at hst
  | cons st0 t ih =>
      intro ms hok st hst
      simp only [resolveMembers] at hok
      cases hrev : alookup w.imageDirRev (st0.pool_id, st0.image_id) with
      | none =>
          rw [hrev] at hok
          exact absurd hok (by simp)
      | some nm0 =>
          rw [hrev] at hok
          cases hrec : resolveMembers w t with
          | error r =>
              rw [hrec] at hok
              exact absurd hok (by simp)
          | ok ms' =>
              rw [hrec] at hok
              simp only [Except.ok.injEq] at hok
              subst hok
              simp only [List.mem_cons] at hst
              rcases hst with rfl | hst
              · exact ⟨nm0, hrev, by simp⟩
              · obtain ⟨nm, h1, h2⟩ := ih ms' hrec st hst
                exact ⟨nm, h1, by simp [h2]⟩

end Grp

namespace Grp

theorem dirGetId_mapHeader (w : World) (gid : String) (f : GroupHeader → GroupHeader)
    (g : String) : dirGetId (mapHeader w gid f) g = dirGetId w g := rfl

theorem dirGetId_images (w : World) (l : List Image) (g : String) :
    dirGetId { w with images := l } g = dirGetId w g := rfl

theorem headerOf_images (w : World) (l : List Image) (gid : String) :
    headerOf { w with images := l } gid = headerOf w gid := rfl

theorem resolveMembers_error (w : World) :
    ∀ (sts : List GroupImageStatus) (rr : Int),
      resolveMembers w sts = .error rr → rr = retENOENT := by
  intro sts
  induction sts with
  | nil =>
      intro rr hr
      simp [resolveMembers] at hr
  | cons st0 t ih =>
      intro rr hr
      simp only [resolveMembers] at hr
      cases hrev : alookup w.imageDirRev (st0.pool_id, st0.image_id) with
      | none =>
          rw [hrev] at hr
          simp only [Except.error.injEq] at hr
          omega
      | some nm0 =>
          rw [hrev] at hr
          cases hrec : resolveMembers w t with
          | error r0 =>
              rw [hrec] at hr
              simp only [Except.error.injEq] at hr
              subst hr
              exact ih r0 hrec
          | ok ms' =>
              rw [hrec] at hr
              simp at hr

end Grp

namespace Grp

theorem alookup_map_upd_ne {α β : Type} [DecidableEq α] (l : List (α × β)) (k k' : α)
    (f : β → β) (hne : k' ≠ k) :
    alookup (l.map (fun p => if p.1 = k then (p.1, f p.2) else p)) k' = alookup l k' := by
  induction l with
  | nil => rfl
  | cons p t ih =>
      obtain ⟨a, b⟩ := p
      simp only [List.map_cons]
      by_cases ha : a = k
      · rw [if_pos ha]
        have ha' : a ≠ k' := fun hk => hne (hk ▸ ha.symm ▸ rfl)
        simp only [alookup]
        rw [if_neg (by simpa using ha'), if_neg (by simpa using ha')]
        exact ih
      · rw [if_neg ha]
        simp only [alookup]
        by_cases ha' : a = k'
        · rw [if_pos ha', if_pos ha']
        · rw [if_neg ha', if_neg ha']
          exact ih

theorem headerOf_mapHeader_ne (w : World) (gid gid' : String)
    (f : GroupHeader → GroupHeader) (hne : gid' ≠ gid) :
    headerOf (mapHeader w gid f) gid' = headerOf w gid' := by
  simpa [headerOf, mapHeader] using alookup_map_upd_ne w.headers gid gid' f hne

theorem hasCompleteNamed_wPendSaved (w : World) (gid : String) (seq : Nat) (g s : String)
    (hpre : hasCompleteNamed w g s = false) :
    hasCompleteNamed (wPendSaved w gid seq s) g s = false := by
  unfold hasCompleteNamed at hpre ⊢
  unfold wPendSaved wSeqBump
  rw [dirGetId_mapHeader, dirGetId_mapHeader]
  cases hgid : dirGetId w g with
  | none => rfl
  | some gid' =>
      rw [hgid] at hpre
      dsimp only at hpre ⊢
      by_cases he : gid' = gid
      · subst he
        rw [headerOf_mapHeader, headerOf_mapHeader]
        cases hh : headerOf w gid' with
        | none => rfl
        | some h0 =>
            rw [hh] at hpre
            dsimp only at hpre
            simp only [Option.map_some']
            simp only [List.any_eq_false, decide_eq_true_eq] at hpre ⊢
            exact upsertRec_pending_no_complete _ seq s hpre
      · rw [headerOf_mapHeader_ne _ _ _ _ he, headerOf_mapHeader_ne _ _ _ _ he]
        exact hpre

theorem hasCompleteNamed_wSnapDone (w : World) (gid : String) (seq : Nat) (s g : String)
    (o : SnapPhaseOut) (hpre : hasCompleteNamed w g s = false) :
    hasCompleteNamed (wSnapDone w gid seq s o) g s = false := by
  rw [hasCompleteNamed_congr (wPendSaved w gid seq s) (wSnapDone w gid seq s o) g s rfl rfl]
  exact hasCompleteNamed_wPendSaved w gid seq g s hpre

theorem hasCompleteNamed_wSeqBump (w : World) (gid : String) (seq : Nat) (g s : String)
    (hpre : hasCompleteNamed w g s = false) :
    hasCompleteNamed (wSeqBump w gid seq) g s = false := by
  unfold hasCompleteNamed at hpre ⊢
  unfold wSeqBump
  rw [dirGetId_mapHeader]
  cases hgid : dirGetId w g with
  | none => rfl
  | some gid' =>
      rw [hgid] at hpre
      dsimp only at hpre ⊢
      by_cases he : gid' = gid
      · subst he
        rw [headerOf_mapHeader]
        cases hh : headerOf w gid' with
        | none => rfl
        | some h0 =>
            rw [hh] at hpre
            dsimp only at hpre
            simp only [Option.map_some']
            exact hpre
      · rw [headerOf_mapHeader_ne _ _ _ _ he]
        exact hpre

theorem headerOf_wSnapDone (w : World) (gid : String) (seq : Nat) (s : String)
    (o : SnapPhaseOut) (h : GroupHeader) (hh : headerOf w gid = some h) :
    headerOf (wSnapDone w gid seq s o) gid =
      some (upsertRec { h with snapSeq := seq } (pendingRec seq s)) := by
  unfold wSnapDone wPendSaved wSeqBump
  rw [headerOf_images, headerOf_mapHeader, headerOf_mapHeader, hh]
  rfl

theorem headerOf_wCommitted (w : World) (gid : String) (seq : Nat) (s : String)
    (o : SnapPhaseOut) (h : GroupHeader) (hh : headerOf w gid = some h) :
    headerOf (wCommitted w gid seq s o) gid =
      some (upsertRec (upsertRec { h with snapSeq := seq } (pendingRec seq s))
        { id := seq, uuid := "", name := s, state := .complete, snaps := o.refs }) := by
  unfold wCommitted
  rw [headerOf_mapHeader, headerOf_wSnapDone w gid seq s o h hh]
  rfl

end Grp

namespace Grp

/-- C1: all-or-nothing group snapshot create.  If no COMPLETE record named
`s` exists beforehand, then after any error return no COMPLETE record named
`s` exists, and on a success return a COMPLETE record named `s` exists and
every COMPLETE record under that name has all of its snaps entries
resolving to existing per-image snapshots  -  the COMPLETE state is written
only once every per-image snapshot create has been confirmed. -/
theorem group_snap_create_all_or_nothing (env : Env) (gp : Int) (w : World) (g s : String)
    (hpre : hasCompleteNamed w g s = false) :
    ∀ r w' tr, group_snap_create env gp w g s = some (r, w', tr) →
      (r ≠ 0 → hasCompleteNamed w' g s = false) ∧
      (r = 0 → hasCompleteNamed w' g s = true ∧ allCompleteRefsResolve w' g s = true) := by
  intro r w' tr hcreate
  unfold group_snap_create at hcreate
  cases hgid : dirGetId w g with
  | none =>
      rw [hgid] at hcreate
      simp only [Option.some.injEq, Prod.mk.injEq] at hcreate
      obtain ⟨hr, hw, -⟩ := hcreate
      subst hw
      refine ⟨fun _ => hpre, fun h0 => ?_⟩
      rw [← hr] at h0
      norm_num [retENOENT] at h0
  | some gid =>
      rw [hgid] at hcreate
      dsimp only at hcreate
      cases hh : headerOf w gid with
      | none =>
          rw [hh] at hcreate
          simp only [Option.some.injEq, Prod.mk.injEq] at hcreate
          obtain ⟨hr, hw, -⟩ := hcreate
          subst hw
          refine ⟨fun _ => hpre, fun h0 => ?_⟩
          rw [← hr] at h0
          norm_num [retENOENT] at h0
      | some h =>
          rw [hh] at hcreate
          dsimp only at hcreate
          have hpre' : ∀ rr ∈ h.snaps, ¬(rr.name = s ∧ rr.state = GroupSnapState.complete) := by
            unfold hasCompleteNamed at hpre
            rw [hgid] at hpre
            dsimp only at hpre
            rw [hh] at hpre
            dsimp only at hpre
            simp only [List.any_eq_false, decide_eq_true_eq] at hpre
            exact hpre
          by_cases hdup :
              ((firstPage h.snaps 1024).any fun rec => decide (rec.name = s)) = true
          · rw [if_pos hdup] at hcreate
            simp only [Option.some.injEq, Prod.mk.injEq] at hcreate
            obtain ⟨hr, hw, -⟩ := hcreate
            subst hw
            refine ⟨fun _ => hpre, fun h0 => ?_⟩
            rw [← hr] at h0
            norm_num [retEEXIST] at h0
          · rw [if_neg hdup] at hcreate
            by_cases hbig : 1024 ≤ h.images.length
            · rw [if_pos hbig] at hcreate
              simp at hcreate
            · rw [if_neg hbig] at hcreate
              cases hres : resolveMembers w h.images with
              | error rr =>
                  rw [hres] at hcreate
                  dsimp only at hcreate
                  simp only [Option.some.injEq, Prod.mk.injEq] at hcreate
                  obtain ⟨hr, hw, -⟩ := hcreate
                  subst hw
                  refine ⟨fun _ => hpre, fun h0 => ?_⟩
                  have hrr := resolveMembers_error w h.images rr hres
                  rw [← hr] at h0
                  norm_num [retENOENT] at hrr
                  omega
              | ok members =>
                  rw [hres] at hcreate
                  dsimp only at hcreate
                  unfold createRest at hcreate
                  dsimp only at hcreate
                  by_cases hopen : openErr env w members ≠ 0
                  · rw [if_pos hopen] at hcreate
                    simp only [Option.some.injEq, Prod.mk.injEq] at hcreate
                    obtain ⟨hr, hw, -⟩ := hcreate
                    subst hw
                    exact ⟨fun _ => hpre, fun h0 => absurd (hr.trans h0) hopen⟩
                  · rw [if_neg hopen] at hcreate
                    by_cases hlock : lockErr env members.length ≠ 0
                    · rw [if_pos hlock] at hcreate
                      simp only [Option.some.injEq, Prod.mk.injEq] at hcreate
                      obtain ⟨hr, hw, -⟩ := hcreate
                      subst hw
                      exact ⟨fun _ => hpre, fun h0 => absurd (hr.trans h0) hlock⟩
                    · rw [if_neg hlock] at hcreate
                      by_cases hseq : env.nextSeqRes < 0
                      · rw [if_pos hseq] at hcreate
                        simp only [Option.some.injEq, Prod.mk.injEq] at hcreate
                        obtain ⟨hr, hw, -⟩ := hcreate
                        subst hw
                        refine ⟨fun _ => hpre, fun h0 => ?_⟩
                        rw [← hr] at h0
                        omega
                      · rw [if_neg hseq] at hcreate
                        by_cases hpend : env.savePendingRes < 0
                        · rw [if_pos hpend] at hcreate
                          simp only [Option.some.injEq, Prod.mk.injEq] at hcreate
                          obtain ⟨hr, hw, -⟩ := hcreate
                          subst hw
                          refine ⟨fun _ => hasCompleteNamed_wSeqBump w gid _ g s hpre,
                            fun h0 => ?_⟩
                          rw [← hr] at h0
                          omega
                        · rw [if_neg hpend] at hcreate
                          by_cases hsnap :
                              (snapPhase env gp w gid s (h.snapSeq + 1) members).err ≠ 0
                          · rw [if_pos hsnap] at hcreate
                            simp only [Option.some.injEq, Prod.mk.injEq] at hcreate
                            obtain ⟨hr, hw, -⟩ := hcreate
                            subst hw
                            exact ⟨fun _ => hasCompleteNamed_wSnapDone w gid _ s g _ hpre,
                              fun h0 => absurd (hr.trans h0) hsnap⟩
                          · rw [if_neg hsnap] at hcreate
                            by_cases hcommit : env.saveCompleteRes < 0
                            · rw [if_pos hcommit] at hcreate
                              simp only [Option.some.injEq, Prod.mk.injEq] at hcreate
                              obtain ⟨hr, hw, -⟩ := hcreate
                              subst hw
                              refine ⟨fun _ => hasCompleteNamed_wSnapDone w gid _ s g _ hpre,
                                fun h0 => ?_⟩
                              rw [← hr] at h0
                              omega
                            · rw [if_neg hcommit] at hcreate
                              simp only [Option.some.injEq, Prod.mk.injEq] at hcreate
                              obtain ⟨hr, hw, -⟩ := hcreate
                              subst hw
                              refine ⟨fun hne => absurd hr.symm hne, fun _ => ⟨?_, ?_⟩⟩
                              · unfold hasCompleteNamed
                                rw [show dirGetId (wCommitted w gid (h.snapSeq + 1) s
                                    (snapPhase env gp w gid s (h.snapSeq + 1) members)) g =
                                  dirGetId w g from rfl, hgid]
                                dsimp only
                                rw [headerOf_wCommitted w gid (h.snapSeq + 1) s _ h hh]
                                dsimp only
                                simp only [List.any_eq_true, decide_eq_true_eq]
                                exact ⟨_, mem_upsertRec _ _, rfl, rfl⟩
                              · unfold allCompleteRefsResolve
                                rw [show dirGetId (wCommitted w gid (h.snapSeq + 1) s
                                    (snapPhase env gp w gid s (h.snapSeq + 1) members)) g =
                                  dirGetId w g from rfl, hgid]
                                dsimp only
                                rw [headerOf_wCommitted w gid (h.snapSeq + 1) s _ h hh]
                                dsimp only
                                simp only [List.all_eq_true]
                                intro rr hrr
                                by_cases hcc : rr.name = s ∧ rr.state = GroupSnapState.complete
                                · rw [if_pos hcc]
                                  have hmidpre :=
                                    upsertRec_pending_no_complete
                                      { h with snapSeq := h.snapSeq + 1 } (h.snapSeq + 1) s hpre'
                                  have hrec :=
                                    upsertRec_complete_unique _ _ s hmidpre rr hrr hcc
                                  subst hrec
                                  simp only [List.all_eq_true]
                                  intro ref href
                                  exact createSnapsAux_refs_resolve env gp gid s
                                    (h.snapSeq + 1) _ 0 _ (not_not.mp hsnap) ref href
                                · rw [if_neg hcc]

end Grp

namespace Grp

theorem group_snap_create_all_or_nothing_witness :
    hasCompleteNamed wBase "g" "s" = false ∧
    hasCompleteNamed wBaseAfterOk "g" "s" = true ∧
    allCompleteRefsResolve wBaseAfterOk "g" "s" = true :=
  ⟨by decide,
   (group_snap_create_all_or_nothing envOk 1 wBase "g" "s" (by decide)
      0 wBaseAfterOk trBaseAfterOk (by decide)).2 rfl⟩

end Grp

namespace Grp

theorem saveRec_pending_not_mem_trSeqN (n : Nat) (c : Int) :
    Ev.saveRec GroupSnapState.pending c ∉ trSeqN n := by
  simp [trSeqN, trLockN, trOpenN]

theorem saveRec_pending_mem_trPendN (env : Env) (n : Nat) (c : Int)
    (hmem : Ev.saveRec GroupSnapState.pending c ∈ trPendN env n) :
    c = env.savePendingRes := by
  unfold trPendN at hmem
  rcases List.mem_append.mp hmem with h1 | h1
  · exact absurd h1 (saveRec_pending_not_mem_trSeqN n c)
  · simpa using h1

theorem saveRec_pending_mem_trSnapN (env : Env) (n : Nat) (c : Int)
    (hmem : Ev.saveRec GroupSnapState.pending c ∈ trSnapN env n) :
    c = env.savePendingRes := by
  unfold trSnapN at hmem
  rcases List.mem_append.mp hmem with h1 | h1
  · exact saveRec_pending_mem_trPendN env n c h1
  · simp at h1

theorem saveRec_pending_mem_trCommitN (env : Env) (n : Nat) (c : Int)
    (hmem : Ev.saveRec GroupSnapState.pending c ∈ trCommitN env n) :
    c = env.savePendingRes := by
  unfold trCommitN at hmem
  rcases List.mem_append.mp hmem with h1 | h1
  · exact saveRec_pending_mem_trSnapN env n c h1
  · simp at h1

end Grp

namespace Grp

/-- C2: if group_snap_create fails after the PENDING record was persisted
(the trace carries a successful pending save), the cleanup path leaves the
PENDING record in the group header  -  it is never deleted  -  and a
subsequent create with the same name is rejected with -EEXIST without any
state change.  The header must hold fewer than 1024 records for the retry
to see the stale record on the first listed page. -/
theorem group_snap_create_pending_survives (env env2 : Env) (gp gp2 : Int)
    (w : World) (g s gid : String) (h : GroupHeader)
    (hgid : dirGetId w g = some gid) (hh : headerOf w gid = some h)
    (hlen : h.snaps.length < 1024) :
    ∀ r w' tr, group_snap_create env gp w g s = some (r, w', tr) →
      r ≠ 0 →
      (∃ c, Ev.saveRec GroupSnapState.pending c ∈ tr ∧ 0 ≤ c) →
      (∃ h', headerOf w' gid = some h' ∧ pendingRec (h.snapSeq + 1) s ∈ h'.snaps) ∧
      group_snap_create env2 gp2 w' g s = some (retEEXIST, w', []) := by
  intro r w' tr hcreate hr hpend
  unfold group_snap_create at hcreate
  rw [hgid] at hcreate
  dsimp only at hcreate
  rw [hh] at hcreate
  dsimp only at hcreate
  by_cases hdup : ((firstPage h.snaps 1024).any fun rec => decide (rec.name = s)) = true
  · rw [if_pos hdup] at hcreate
    simp only [Option.some.injEq, Prod.mk.injEq] at hcreate
    obtain ⟨-, -, htr⟩ := hcreate
    obtain ⟨c, hc, -⟩ := hpend
    rw [← htr] at hc
    simp at hc
  · rw [if_neg hdup] at hcreate
    by_cases hbig : 1024 ≤ h.images.length
    · rw [if_pos hbig] at hcreate
      simp at hcreate
    · rw [if_neg hbig] at hcreate
      cases hres : resolveMembers w h.images with
      | error rr =>
          rw [hres] at hcreate
          dsimp only at hcreate
          simp only [Option.some.injEq, Prod.mk.injEq] at hcreate
          obtain ⟨-, -, htr⟩ := hcreate
          obtain ⟨c, hc, -⟩ := hpend
          rw [← htr] at hc
          simp at hc
      | ok members =>
          rw [hres] at hcreate
          dsimp only at hcreate
          unfold createRest at hcreate
          dsimp only at hcreate
          by_cases hopen : openErr env w members ≠ 0
          · rw [if_pos hopen] at hcreate
            simp only [Option.some.injEq, Prod.mk.injEq] at hcreate
            obtain ⟨-, -, htr⟩ := hcreate
            obtain ⟨c, hc, -⟩ := hpend
            rw [← htr] at hc
            unfold trOpenN at hc
            simp at hc
          · rw [if_neg hopen] at hcreate
            by_cases hlock : lockErr env members.length ≠ 0
            · rw [if_pos hlock] at hcreate
              simp only [Option.some.injEq, Prod.mk.injEq] at hcreate
              obtain ⟨-, -, htr⟩ := hcreate
              obtain ⟨c, hc, -⟩ := hpend
              rw [← htr] at hc
              unfold trLockN trOpenN at hc
              simp at hc
            · rw [if_neg hlock] at hcreate
              by_cases hseq : env.nextSeqRes < 0
              · rw [if_pos hseq] at hcreate
                simp only [Option.some.injEq, Prod.mk.injEq] at hcreate
                obtain ⟨-, -, htr⟩ := hcreate
                obtain ⟨c, hc, -⟩ := hpend
                rw [← htr] at hc
                exact absurd hc (saveRec_pending_not_mem_trSeqN _ c)
              · rw [if_neg hseq] at hcreate
                by_cases hpendf : env.savePendingRes < 0
                · rw [if_pos hpendf] at hcreate
                  simp only [Option.some.injEq, Prod.mk.injEq] at hcreate
                  obtain ⟨-, -, htr⟩ := hcreate
                  obtain ⟨c, hc, hcnn⟩ := hpend
                  rw [← htr] at hc
                  have := saveRec_pending_mem_trPendN env _ c hc
                  omega
                · rw [if_neg hpendf] at hcreate
                  by_cases hsnap :
                      (snapPhase env gp w gid s (h.snapSeq + 1) members).err ≠ 0
                  · rw [if_pos hsnap] at hcreate
                    simp only [Option.some.injEq, Prod.mk.injEq] at hcreate
                    obtain ⟨-, hw, -⟩ := hcreate
                    subst hw
                    have hh' := headerOf_wSnapDone w gid (h.snapSeq + 1) s
                      (snapPhase env gp w gid s (h.snapSeq + 1) members) h hh
                    refine ⟨⟨_, hh', mem_upsertRec _ _⟩, ?_⟩
                    refine dup_first_page_eexist env2 gp2 _ g s gid _ hgid hh' ?_
                    refine firstPage_any_of_mem _ s (pendingRec (h.snapSeq + 1) s)
                      (mem_firstPage_upsert _ _ ?_) rfl
                    simpa using hlen
                  · rw [if_neg hsnap] at hcreate
                    by_cases hcommit : env.saveCompleteRes < 0
                    · rw [if_pos hcommit] at hcreate
                      simp only [Option.some.injEq, Prod.mk.injEq] at hcreate
                      obtain ⟨-, hw, -⟩ := hcreate
                      subst hw
                      have hh' := headerOf_wSnapDone w gid (h.snapSeq + 1) s
                        (snapPhase env gp w gid s (h.snapSeq + 1) members) h hh
                      refine ⟨⟨_, hh', mem_upsertRec _ _⟩, ?_⟩
                      refine dup_first_page_eexist env2 gp2 _ g s gid _ hgid hh' ?_
                      refine firstPage_any_of_mem _ s (pendingRec (h.snapSeq + 1) s)
                        (mem_firstPage_upsert _ _ ?_) rfl
                      simpa using hlen
                    · rw [if_neg hcommit] at hcreate
                      simp only [Option.some.injEq, Prod.mk.injEq] at hcreate
                      obtain ⟨hr0, -, -⟩ := hcreate
                      exact absurd hr0.symm hr

end Grp

namespace Grp

theorem group_snap_create_pending_survives_witness :
    (∃ h', headerOf wBaseAfterFail "gid" = some h' ∧
       pendingRec (hBase.snapSeq + 1) "s" ∈ h'.snaps) ∧
    group_snap_create envOk 1 wBaseAfterFail "g" "s" =
      some (retEEXIST, wBaseAfterFail, []) :=
  group_snap_create_pending_survives envSnapFail envOk 1 1 wBase "g" "s" "gid" hBase
    (by decide) (by decide) (by decide) (-5) wBaseAfterFail trBaseAfterFail
    (by decide) (by decide) ⟨0, by decide, by decide⟩

end Grp

namespace Grp

/-- C6: on a successful group_snap_create run with new sequence number
seq = snap_seq + 1, every member image listed in the group header ends up
carrying a per-image snapshot whose name is exactly
snap_name + "_" + group_id + "_" + seq (snapName) and whose namespace tag
is Group with the group's pool, the group id and seq (Group.cc lines
518-533). -/
theorem group_snap_create_per_image_names (env : Env) (gp : Int) (w : World)
    (g s gid : String) (h : GroupHeader)
    (hgid : dirGetId w g = some gid) (hh : headerOf w gid = some h) :
    ∀ w' tr, group_snap_create env gp w g s = some (0, w', tr) →
      ∀ st ∈ h.images, ∃ iid,
        imageHasSnapL w'.images st.pool_id iid
          (fun sn => decide (sn.name = snapName s gid (h.snapSeq + 1) ∧
                             sn.ns = SnapNs.group gp gid (h.snapSeq + 1))) = true := by
  intro w' tr hcreate st hst
  unfold group_snap_create at hcreate
  rw [hgid] at hcreate
  dsimp only at hcreate
  rw [hh] at hcreate
  dsimp only at hcreate
  by_cases hdup : ((firstPage h.snaps 1024).any fun rec => decide (rec.name = s)) = true
  · rw [if_pos hdup] at hcreate
    simp only [Option.some.injEq, Prod.mk.injEq] at hcreate
    obtain ⟨hr0, -, -⟩ := hcreate
    norm_num [retEEXIST] at hr0
  · rw [if_neg hdup] at hcreate
    by_cases hbig : 1024 ≤ h.images.length
    · rw [if_pos hbig] at hcreate
      simp at hcreate
    · rw [if_neg hbig] at hcreate
      cases hres : resolveMembers w h.images with
      | error rr =>
          rw [hres] at hcreate
          dsimp only at hcreate
          simp only [Option.some.injEq, Prod.mk.injEq] at hcreate
          obtain ⟨hr0, -, -⟩ := hcreate
          have := resolveMembers_error w h.images rr hres
          norm_num [retENOENT] at this
          omega
      | ok members =>
          rw [hres] at hcreate
          dsimp only at hcreate
          unfold createRest at hcreate
          dsimp only at hcreate
          by_cases hopen : openErr env w members ≠ 0
          · rw [if_pos hopen] at hcreate
            simp only [Option.some.injEq, Prod.mk.injEq] at hcreate
            obtain ⟨hr0, -, -⟩ := hcreate
            exact absurd hr0 hopen
          · rw [if_neg hopen] at hcreate
            by_cases hlock : lockErr env members.length ≠ 0
            · rw [if_pos hlock] at hcreate
              simp only [Option.some.injEq, Prod.mk.injEq] at hcreate
              obtain ⟨hr0, -, -⟩ := hcreate
              exact absurd hr0 hlock
            · rw [if_neg hlock] at hcreate
              by_cases hseq : env.nextSeqRes < 0
              · rw [if_pos hseq] at hcreate
                simp only [Option.some.injEq, Prod.mk.injEq] at hcreate
                obtain ⟨hr0, -, -⟩ := hcreate
                omega
              · rw [if_neg hseq] at hcreate
                by_cases hpendf : env.savePendingRes < 0
                · rw [if_pos hpendf] at hcreate
                  simp only [Option.some.injEq, Prod.mk.injEq] at hcreate
                  obtain ⟨hr0, -, -⟩ := hcreate
                  omega
                · rw [if_neg hpendf] at hcreate
                  by_cases hsnap :
                      (snapPhase env gp w gid s (h.snapSeq + 1) members).err ≠ 0
                  · rw [if_pos hsnap] at hcreate
                    simp only [Option.some.injEq, Prod.mk.injEq] at hcreate
                    obtain ⟨hr0, -, -⟩ := hcreate
                    exact absurd hr0 hsnap
                  · rw [if_neg hsnap] at hcreate
                    by_cases hcommit : env.saveCompleteRes < 0
                    · rw [if_pos hcommit] at hcreate
                      simp only [Option.some.injEq, Prod.mk.injEq] at hcreate
                      obtain ⟨hr0, -, -⟩ := hcreate
                      omega
                    · rw [if_neg hcommit] at hcreate
                      simp only [Option.some.injEq, Prod.mk.injEq] at hcreate
                      obtain ⟨-, hw, -⟩ := hcreate
                      subst hw
                      obtain ⟨nm, hrev, hmem⟩ :=
                        resolveMembers_ok_mem w h.images members hres st hst
                      have hopen0 : lastErr ((openAll env w 0 members).map OpenOut.res) = 0 :=
                        not_not.mp hopen
                      obtain ⟨iid, hfwd, hhd⟩ :=
                        openAll_zero_mem env w members 0 hopen0 _ hmem
                      refine ⟨iid, ?_⟩
                      exact createSnapsAux_named env gp gid s (h.snapSeq + 1)
                        (handlesOf env w members) 0
                        (wPendSaved w gid (h.snapSeq + 1) s).images
                        (not_not.mp hsnap) ⟨st.pool_id, iid⟩ hhd

end Grp

namespace Grp

theorem group_snap_create_per_image_names_witness :
    ∃ iid, imageHasSnapL wBaseAfterOk.images stBase.pool_id iid
      (fun sn => decide (sn.name = snapName "s" "gid" (hBase.snapSeq + 1) ∧
                         sn.ns = SnapNs.group 1 "gid" (hBase.snapSeq + 1))) = true :=
  group_snap_create_per_image_names envOk 1 wBase "g" "s" "gid" hBase
    (by decide) (by decide) wBaseAfterOk trBaseAfterOk (by decide) stBase (by decide)

end Grp
